import Mathlib

/-!
# Floating widgets: modal overlays and the body scroll-lock

A shallow embedding of `floating-widgets.js` (class `FloatingWidgets`).

* The document is a list of elements in document order; an element is
  referred to by its position in that list.  Each element carries its `id`
  (the empty string when it has none), its class list, its `data-modal-id`
  attribute and the position of its parent element.
* `document.body.style` is the record `BodyStyle` (the three properties the
  script writes).
* `setTimeout` appends a timer to the list of pending timers; `advance` lets
  time pass and runs the callbacks that are due, by due time and, for equal
  due times, in the order in which they were scheduled.
* `_dispatchEvent` appends the event to the list of dispatched events, with
  the document as it is at that moment (what a listener would observe).  The
  script binds no listener for its own two events.
* `addEventListener` appends to the list of bound listeners; `click` and
  `keydown` run the bound listeners along the propagation path.
-/

namespace FloatingWidgets

/-! ## Data model -/

/-- An element of the document. -/
structure Element where
  /-- The `id` attribute, `""` when absent. -/
  id : String
  /-- The tokens of `classList`, in order. -/
  classList : List String
  /-- The `data-modal-id` attribute (`getAttribute` gives `null` when absent). -/
  dataModalId : Option String
  /-- Position of the parent element, `none` for a child of the body. -/
  parent : Option Nat
deriving DecidableEq

/-- The inline style properties of `document.body` written by the script. -/
structure BodyStyle where
  overflow : String
  position : String
  width : String
deriving DecidableEq

/-- The document: its elements in document order and the body style. -/
structure Document where
  elements : List Element
  body : BodyStyle
deriving DecidableEq

/-- A `CustomEvent` as built by `_dispatchEvent`. -/
structure CustomEvent where
  name : String
  bubbles : Bool
  cancelable : Bool
  /-- The value of `detail.target`. -/
  detailTarget : Nat
deriving DecidableEq

/-- One call of `target.dispatchEvent(event)`, with the document a listener
observes at that moment. -/
structure Dispatch where
  event : CustomEvent
  target : Nat
  observed : Document
deriving DecidableEq

/-- The two callbacks the script hands to `setTimeout`. -/
inductive Callback where
  /-- The callback of `hideModal`: release the lock when no modal is active. -/
  | releaseIfNoneActive
  /-- The callback of `hideAllModals`: release the lock. -/
  | release
deriving DecidableEq

/-- A pending timer. -/
structure Timer where
  callback : Callback
  /-- The delay passed to `setTimeout`. -/
  delay : Nat
  /-- The time at which the callback is due. -/
  due : Nat
deriving DecidableEq

/-- The listeners bound by `_bindEventListeners`, with the element each
closure captures. -/
inductive Listener where
  /-- Click listener on a `.floating-btn` element. -/
  | widgetClick (button : Nat)
  /-- Click listener on a `.close-btn` element. -/
  | closeClick (button : Nat)
  /-- Click listener on a `.modal-overlay` element. -/
  | overlayClick (modal : Nat)
  /-- Keydown listener on the document. -/
  | documentKeydown
deriving DecidableEq

/-- The state of the page: document, bound listeners, pending timers, the
clock and the events dispatched so far. -/
structure State where
  doc : Document
  listeners : List Listener
  timers : List Timer
  now : Nat
  dispatched : List Dispatch
deriving DecidableEq

/-! ## DOM primitives -/

/-- Apply `f` to the element at position `i`. -/
def modifyAt (f : Element → Element) : Nat → List Element → List Element
  | _, [] => []
  | 0, e :: es => f e :: es
  | i + 1, e :: es => e :: modifyAt f i es

/-- The class list of element `i` (empty when there is no such element). -/
def classListOf (d : Document) (i : Nat) : List String :=
  match d.elements[i]? with
  | some e => e.classList
  | none => []

/-- The `id` of element `i`. -/
def idOf (d : Document) (i : Nat) : String :=
  match d.elements[i]? with
  | some e => e.id
  | none => ""

/-- The parent of element `i`. -/
def parentOf (d : Document) (i : Nat) : Option Nat :=
  match d.elements[i]? with
  | some e => e.parent
  | none => none

/-- The `data-modal-id` attribute of element `i`. -/
def dataModalIdOf (d : Document) (i : Nat) : Option String :=
  match d.elements[i]? with
  | some e => e.dataModalId
  | none => none

/-- The token list after `classList.add(c)`: a token already present is not added again. -/
def classListAdd (c : String) (l : List String) : List String :=
  if c ∈ l then l else l ++ [c]

/-- The token list after `classList.remove(c)`. -/
def classListRemove (c : String) (l : List String) : List String :=
  l.filter (fun x => x ≠ c)

/-- The document after `el.classList.add(c)`. -/
def addClass (d : Document) (i : Nat) (c : String) : Document :=
  { d with elements := modifyAt (fun e => { e with classList := classListAdd c e.classList }) i d.elements }

/-- The document after `el.classList.remove(c)`. -/
def removeClass (d : Document) (i : Nat) (c : String) : Document :=
  { d with elements := modifyAt (fun e => { e with classList := classListRemove c e.classList }) i d.elements }

/-- Position of the first element of the list whose id is `key`. -/
def firstWithId (key : String) : List Element → Option Nat
  | [] => none
  | e :: es => if e.id = key then some 0 else (firstWithId key es).map Nat.succ

/-- The result of `document.getElementById(key)`: the first element in document order
whose id is `key`; the empty string is the id of no element. -/
def getElementById (d : Document) (key : String) : Option Nat :=
  if key = "" then none else firstWithId key d.elements

/-- Whether element `i` carries every class of `classes`. -/
def hasClasses (d : Document) (classes : List String) (i : Nat) : Bool :=
  classes.all (fun c => decide (c ∈ classListOf d i))

/-- The result of `document.querySelectorAll` for a compound class selector
(`.a.b`): the matching elements, in document order. -/
def querySelectorAll (d : Document) (classes : List String) : List Nat :=
  (List.range d.elements.length).filter (hasClasses d classes)

/-- The result of `document.querySelectorAll('.modal-overlay.active')`. -/
def activeModals (d : Document) : List Nat :=
  querySelectorAll d ["modal-overlay", "active"]

/-- The result of `el.closest('.' + c)`: the nearest inclusive ancestor carrying class `c`.
The first argument bounds the number of steps up the tree. -/
def closestAux (d : Document) (c : String) : Nat → Nat → Option Nat
  | 0, _ => none
  | fuel + 1, i =>
    if c ∈ classListOf d i then some i
    else match parentOf d i with
      | some p => closestAux d c fuel p
      | none => none

/-- The result of `el.closest('.' + c)`. -/
def closest (d : Document) (c : String) (i : Nat) : Option Nat :=
  closestAux d c d.elements.length i

/-- The propagation path of an event: the target, then its ancestors up to the root.
The first argument bounds the number of steps up the tree. -/
def eventPathAux (d : Document) : Nat → Nat → List Nat
  | 0, _ => []
  | fuel + 1, i =>
    i :: (match parentOf d i with
      | some p => eventPathAux d fuel p
      | none => [])

/-- The propagation path of an event whose target is `i`. -/
def eventPath (d : Document) (i : Nat) : List Nat :=
  eventPathAux d d.elements.length i

/-! ## The controller -/

/-- The state after `setTimeout(cb, delay)`. -/
def setTimeout (s : State) (cb : Callback) (delay : Nat) : State :=
  { s with timers := s.timers ++ [{ callback := cb, delay := delay, due := s.now + delay }] }

/-- The state after `_dispatchEvent(eventName, target)`: a bubbling, cancelable
`CustomEvent` whose detail is the target, dispatched on the target. -/
def _dispatchEvent (s : State) (eventName : String) (target : Nat) : State :=
  { s with dispatched := s.dispatched ++
      [{ event := { name := eventName, bubbles := true, cancelable := true, detailTarget := target },
         target := target,
         observed := s.doc }] }

/-- The body style with the three properties set as `showModal` sets them. -/
def lockedStyle : BodyStyle :=
  { overflow := "hidden", position := "fixed", width := "100%" }

/-- The body style with the three properties cleared. -/
def clearedStyle : BodyStyle :=
  { overflow := "", position := "", width := "" }

/-- The state after `showModal(modalId)`. -/
def showModal (s : State) (modalId : String) : State :=
  match getElementById s.doc modalId with
  | some modal =>
    let d1 := addClass s.doc modal "active"
    let d2 := { d1 with body := { d1.body with overflow := "hidden" } }
    let d3 := { d2 with body := { d2.body with position := "fixed" } }
    let d4 := { d3 with body := { d3.body with width := "100%" } }
    _dispatchEvent { s with doc := d4 } "modalShown" modal
  | none => s

/-- The state after `hideModal(modalId)`. -/
def hideModal (s : State) (modalId : String) : State :=
  match getElementById s.doc modalId with
  | some modal =>
    let s1 := { s with doc := removeClass s.doc modal "active" }
    let s2 := setTimeout s1 Callback.releaseIfNoneActive 300
    _dispatchEvent s2 "modalHidden" modal
  | none => s

/-- The state after `hideAllModals()`. -/
def hideAllModals (s : State) : State :=
  let active := activeModals s.doc
  let d := active.foldl (fun d modal => removeClass d modal "active") s.doc
  setTimeout { s with doc := d } Callback.release 300

/-- The document after the three assignments that restore scrolling. -/
def releaseScroll (d : Document) : Document :=
  let d1 := { d with body := { d.body with overflow := "" } }
  let d2 := { d1 with body := { d1.body with position := "" } }
  { d2 with body := { d2.body with width := "" } }

/-- The document after a timer callback has run. -/
def runCallback (cb : Callback) (d : Document) : Document :=
  match cb with
  | Callback.releaseIfNoneActive =>
    if (activeModals d).length = 0 then releaseScroll d else d
  | Callback.release => releaseScroll d

/-- Insert a timer into a list ordered by due time, behind the timers due no later. -/
def insertTimer (t : Timer) : List Timer → List Timer
  | [] => [t]
  | x :: xs => if t.due < x.due then t :: x :: xs else x :: insertTimer t xs

/-- The order in which timers fire: by due time, and for equal due times in the order in
which they were scheduled. -/
def firingOrder (l : List Timer) : List Timer :=
  l.foldl (fun acc t => insertTimer t acc) []

/-- The state after `dt` units of time: the callbacks that are due by then have run,
in their firing order. -/
def advance (s : State) (dt : Nat) : State :=
  let t := s.now + dt
  let due := firingOrder (s.timers.filter (fun tm => decide (tm.due ≤ t)))
  { s with
    now := t,
    doc := due.foldl (fun d tm => runCallback tm.callback d) s.doc,
    timers := s.timers.filter (fun tm => !decide (tm.due ≤ t)) }

/-- The state after `_bindEventListeners()`, given the three node lists found by `init`. -/
def _bindEventListeners (s : State) (widgets modals closeButtons : List Nat) : State :=
  { s with listeners := s.listeners
      ++ widgets.map Listener.widgetClick
      ++ closeButtons.map Listener.closeClick
      ++ modals.map Listener.overlayClick
      ++ [Listener.documentKeydown] }

/-- The state after `init()`. -/
def init (s : State) : State :=
  let widgets := querySelectorAll s.doc ["floating-btn"]
  let modals := querySelectorAll s.doc ["modal-overlay"]
  let closeButtons := querySelectorAll s.doc ["close-btn"]
  _bindEventListeners s widgets modals closeButtons

/-- The element a click listener is bound to (`none` for a listener that is not a click listener). -/
def Listener.clickNode : Listener → Option Nat
  | Listener.widgetClick b => some b
  | Listener.closeClick b => some b
  | Listener.overlayClick m => some m
  | Listener.documentKeydown => none

/-- The state after a click listener has run for a click whose target is `target`. -/
def handleClick (l : Listener) (target : Nat) (s : State) : State :=
  match l with
  | Listener.widgetClick button =>
    match dataModalIdOf s.doc button with
    | some modalId => if modalId ≠ "" then showModal s modalId else s
    | none => s
  | Listener.closeClick button =>
    match closest s.doc "modal-overlay" button with
    | some modal => hideModal s (idOf s.doc modal)
    | none => s
  | Listener.overlayClick modal =>
    if target = modal then hideModal s (idOf s.doc modal) else s
  | Listener.documentKeydown => s

/-- The click listeners that run for a click on `target`, in order: along the propagation
path, and on each element in the order in which they were bound. -/
def clickListeners (s : State) (target : Nat) : List Listener :=
  (eventPath s.doc target).flatMap (fun node =>
    s.listeners.filter (fun l => decide (l.clickNode = some node)))

/-- The state after a click on element `target`. -/
def click (s : State) (target : Nat) : State :=
  (clickListeners s target).foldl (fun st l => handleClick l target st) s

/-- The state after a keydown listener has run for the key `key`. -/
def handleKeydown (l : Listener) (key : String) (s : State) : State :=
  match l with
  | Listener.documentKeydown => if key = "Escape" then hideAllModals s else s
  | _ => s

/-- The state after a keydown event with key `key` reaches the document. -/
def keydown (s : State) (key : String) : State :=
  s.listeners.foldl (fun st l => handleKeydown l key st) s

/-- The state after `initFloatingWidgets()`. -/
def initFloatingWidgets (s : State) : State :=
  init s

/-! ## Vocabulary of the specification -/

/-- Element `i` is a modal overlay. -/
def isModal (d : Document) (i : Nat) : Prop :=
  "modal-overlay" ∈ classListOf d i

/-- Element `i` carries the visible state. -/
def isActive (d : Document) (i : Nat) : Prop :=
  "active" ∈ classListOf d i

/-- The scroll-lock is engaged on the body. -/
def scrollLocked (d : Document) : Prop :=
  d.body.overflow = "hidden" ∧ d.body.position = "fixed" ∧ d.body.width = "100%"

/-- The scroll-lock fields of the body are all cleared. -/
def scrollReleased (d : Document) : Prop :=
  d.body.overflow = "" ∧ d.body.position = "" ∧ d.body.width = ""

instance (d : Document) (i : Nat) : Decidable (isModal d i) := by
  unfold isModal; infer_instance

instance (d : Document) (i : Nat) : Decidable (isActive d i) := by
  unfold isActive; infer_instance

instance (d : Document) : Decidable (scrollLocked d) := by
  unfold scrollLocked; infer_instance

instance (d : Document) : Decidable (scrollReleased d) := by
  unfold scrollReleased; infer_instance

/-- The elements are listed in document order: a parent stands before its children. -/
def wellFormed (d : Document) : Prop :=
  ∀ i, i < d.elements.length → ∀ p, parentOf d i = some p → p < i

instance (d : Document) : Decidable (wellFormed d) :=
  decidable_of_iff
    (∀ i, i < d.elements.length → (parentOf d i).all (fun p => decide (p < i)) = true)
    (by
      unfold wellFormed
      constructor
      · intro h i hi p hp
        have := h i hi
        rw [hp] at this
        simpa using this
      · intro h i hi
        cases hp : parentOf d i with
        | none => rfl
        | some p => simpa using h i hi p hp)

/-! ## Sequences of calls -/

/-- What can happen to the page between two states: a call of one of the three operations,
or the passing of time (which fires the callbacks that come due). -/
inductive Action where
  | showModal (modalId : String)
  | hideModal (modalId : String)
  | hideAllModals
  | advance (dt : Nat)
deriving DecidableEq

/-- The state after one action. -/
def step (s : State) : Action → State
  | Action.showModal modalId => showModal s modalId
  | Action.hideModal modalId => hideModal s modalId
  | Action.hideAllModals => hideAllModals s
  | Action.advance dt => advance s dt

/-- The state after a sequence of actions, the first of the list first. -/
def run (s : State) (actions : List Action) : State :=
  actions.foldl step s

/-- The initial state of the specification: all modals hidden, scroll-lock inactive,
nothing pending. -/
def isInitial (s : State) : Prop :=
  activeModals s.doc = [] ∧ ¬ scrollLocked s.doc ∧ s.timers = []

instance (s : State) : Decidable (isInitial s) := by
  unfold isInitial; infer_instance

/-! ## A concrete page

A trigger for `m1`, the overlay `m1` with a content box and a close button in it,
and a second overlay `m2`. -/

/-- The document of the example page. -/
def examplePage : Document :=
  { elements :=
      [ { id := "", classList := ["floating-btn"], dataModalId := some "m1", parent := none },
        { id := "m1", classList := ["modal-overlay"], dataModalId := none, parent := none },
        { id := "", classList := ["modal-content"], dataModalId := none, parent := some 1 },
        { id := "", classList := ["close-btn"], dataModalId := none, parent := some 2 },
        { id := "m2", classList := ["modal-overlay"], dataModalId := none, parent := none } ],
    body := clearedStyle }

/-- The example page as loaded: nothing bound, nothing pending, nothing dispatched. -/
def exampleStart : State :=
  { doc := examplePage, listeners := [], timers := [], now := 0, dispatched := [] }

/-- The example page with both overlays open. -/
def exampleBothOpen : State :=
  showModal (showModal exampleStart "m1") "m2"

/-- A page whose trigger carries an id of its own: the trigger `b1` for the overlay `m1`. -/
def exampleTriggerPage : Document :=
  { elements :=
      [ { id := "b1", classList := ["floating-btn"], dataModalId := some "m1", parent := none },
        { id := "m1", classList := ["modal-overlay"], dataModalId := none, parent := none } ],
    body := clearedStyle }

/-- The page with the trigger `b1` as loaded. -/
def exampleTriggerStart : State :=
  { doc := exampleTriggerPage, listeners := [], timers := [], now := 0, dispatched := [] }

/-! ## Basic facts about the DOM primitives -/

theorem length_modifyAt (f : Element → Element) (i : Nat) (l : List Element) :
    (modifyAt f i l).length = l.length := by
  induction l generalizing i with
  | nil => cases i <;> rfl
  | cons e es ih =>
    cases i with
    | zero => rfl
    | succ i => simp [modifyAt, ih]

theorem getElem?_modifyAt (f : Element → Element) (i j : Nat) (l : List Element) :
    (modifyAt f i l)[j]? = if j = i then (l[j]?).map f else l[j]? := by
  induction l generalizing i j with
  | nil => cases i <;> simp [modifyAt]
  | cons e es ih =>
    cases i with
    | zero =>
      cases j with
      | zero => simp [modifyAt]
      | succ j => simp [modifyAt]
    | succ i =>
      cases j with
      | zero => simp [modifyAt]
      | succ j => simp [modifyAt, ih]

theorem modifyAt_eq_self (f : Element → Element) (i : Nat) (l : List Element)
    (h : ∀ e, l[i]? = some e → f e = e) : modifyAt f i l = l := by
  induction l generalizing i with
  | nil => cases i <;> rfl
  | cons e es ih =>
    cases i with
    | zero => simp [modifyAt, h e (by simp)]
    | succ i =>
      simp only [modifyAt]
      rw [ih i (fun e he => h e (by simpa using he))]

theorem firstWithId_modifyAt (f : Element → Element) (hf : ∀ e, (f e).id = e.id)
    (key : String) (i : Nat) (l : List Element) :
    firstWithId key (modifyAt f i l) = firstWithId key l := by
  induction l generalizing i with
  | nil => cases i <;> rfl
  | cons e es ih =>
    cases i with
    | zero => simp [modifyAt, firstWithId, hf]
    | succ i => simp [modifyAt, firstWithId, ih]

theorem firstWithId_lt (key : String) (l : List Element) (m : Nat)
    (h : firstWithId key l = some m) : m < l.length := by
  induction l generalizing m with
  | nil => simp [firstWithId] at h
  | cons e es ih =>
    simp only [firstWithId] at h
    split at h
    · cases h; simp
    · cases hr : firstWithId key es with
      | none => simp [hr] at h
      | some k =>
        simp [hr] at h
        subst h
        have := ih k hr
        simp; omega

theorem firstWithId_id (key : String) (l : List Element) (m : Nat)
    (h : firstWithId key l = some m) : (l[m]?).map Element.id = some key := by
  induction l generalizing m with
  | nil => simp [firstWithId] at h
  | cons e es ih =>
    simp only [firstWithId] at h
    split at h
    · cases h; simpa
    · cases hr : firstWithId key es with
      | none => simp [hr] at h
      | some k =>
        simp [hr] at h
        subst h
        simpa using ih k hr

theorem firstWithId_eq_none_iff (key : String) (l : List Element) :
    firstWithId key l = none ↔ ∀ e ∈ l, e.id ≠ key := by
  induction l with
  | nil => simp [firstWithId]
  | cons e es ih =>
    simp only [firstWithId, List.mem_cons, forall_eq_or_imp]
    split
    · rename_i he
      simp [he]
    · rename_i he
      simp [he, ih]

/-- The lookup finds nothing exactly when the key is empty or no element carries it as id. -/
theorem getElementById_eq_none_iff (d : Document) (key : String) :
    getElementById d key = none ↔ key = "" ∨ ∀ e ∈ d.elements, e.id ≠ key := by
  unfold getElementById
  split
  · rename_i h
    simp [h]
  · rename_i h
    simp [h, firstWithId_eq_none_iff]

theorem getElementById_lt (d : Document) (key : String) (m : Nat)
    (h : getElementById d key = some m) : m < d.elements.length := by
  unfold getElementById at h
  split at h
  · cases h
  · exact firstWithId_lt key _ m h

theorem getElementById_idOf (d : Document) (key : String) (m : Nat)
    (h : getElementById d key = some m) : idOf d m = key := by
  unfold getElementById at h
  split at h
  · cases h
  · have := firstWithId_id key _ m h
    unfold idOf
    cases he : d.elements[m]? with
    | none => simp [he] at this
    | some e => simpa [he] using this

@[simp] theorem body_addClass (d : Document) (i : Nat) (c : String) :
    (addClass d i c).body = d.body := rfl

@[simp] theorem body_removeClass (d : Document) (i : Nat) (c : String) :
    (removeClass d i c).body = d.body := rfl

@[simp] theorem length_addClass (d : Document) (i : Nat) (c : String) :
    (addClass d i c).elements.length = d.elements.length := by
  simp [addClass, length_modifyAt]

@[simp] theorem length_removeClass (d : Document) (i : Nat) (c : String) :
    (removeClass d i c).elements.length = d.elements.length := by
  simp [removeClass, length_modifyAt]

@[simp] theorem getElementById_addClass (d : Document) (i : Nat) (c key : String) :
    getElementById (addClass d i c) key = getElementById d key := by
  simp [getElementById, addClass, firstWithId_modifyAt]

@[simp] theorem getElementById_removeClass (d : Document) (i : Nat) (c key : String) :
    getElementById (removeClass d i c) key = getElementById d key := by
  simp [getElementById, removeClass, firstWithId_modifyAt]

theorem classListOf_addClass (d : Document) (i j : Nat) (c : String) :
    classListOf (addClass d i c) j =
      if j = i ∧ i < d.elements.length then classListAdd c (classListOf d j) else classListOf d j := by
  unfold classListOf addClass
  simp only [getElem?_modifyAt]
  by_cases hji : j = i
  · subst hji
    by_cases hlt : j < d.elements.length
    · simp [hlt, List.getElem?_eq_getElem]
    · simp [hlt, List.getElem?_eq_none (Nat.le_of_not_lt hlt)]
  · simp [hji]

theorem classListOf_removeClass (d : Document) (i j : Nat) (c : String) :
    classListOf (removeClass d i c) j =
      if j = i then classListRemove c (classListOf d j) else classListOf d j := by
  unfold classListOf removeClass
  simp only [getElem?_modifyAt]
  by_cases hji : j = i
  · subst hji
    cases he : d.elements[j]? with
    | none => simp [classListRemove]
    | some e => simp
  · simp [hji]

@[simp] theorem idOf_addClass (d : Document) (i j : Nat) (c : String) :
    idOf (addClass d i c) j = idOf d j := by
  unfold idOf addClass
  simp only [getElem?_modifyAt]
  by_cases hji : j = i
  · subst hji
    cases he : d.elements[j]? <;> simp
  · simp [hji]

@[simp] theorem idOf_removeClass (d : Document) (i j : Nat) (c : String) :
    idOf (removeClass d i c) j = idOf d j := by
  unfold idOf removeClass
  simp only [getElem?_modifyAt]
  by_cases hji : j = i
  · subst hji
    cases he : d.elements[j]? <;> simp
  · simp [hji]

@[simp] theorem parentOf_addClass (d : Document) (i j : Nat) (c : String) :
    parentOf (addClass d i c) j = parentOf d j := by
  unfold parentOf addClass
  simp only [getElem?_modifyAt]
  by_cases hji : j = i
  · subst hji
    cases he : d.elements[j]? <;> simp
  · simp [hji]

@[simp] theorem parentOf_removeClass (d : Document) (i j : Nat) (c : String) :
    parentOf (removeClass d i c) j = parentOf d j := by
  unfold parentOf removeClass
  simp only [getElem?_modifyAt]
  by_cases hji : j = i
  · subst hji
    cases he : d.elements[j]? <;> simp
  · simp [hji]

@[simp] theorem dataModalIdOf_addClass (d : Document) (i j : Nat) (c : String) :
    dataModalIdOf (addClass d i c) j = dataModalIdOf d j := by
  unfold dataModalIdOf addClass
  simp only [getElem?_modifyAt]
  by_cases hji : j = i
  · subst hji
    cases he : d.elements[j]? <;> simp
  · simp [hji]

@[simp] theorem dataModalIdOf_removeClass (d : Document) (i j : Nat) (c : String) :
    dataModalIdOf (removeClass d i c) j = dataModalIdOf d j := by
  unfold dataModalIdOf removeClass
  simp only [getElem?_modifyAt]
  by_cases hji : j = i
  · subst hji
    cases he : d.elements[j]? <;> simp
  · simp [hji]

theorem mem_classListAdd (c x : String) (l : List String) :
    x ∈ classListAdd c l ↔ x ∈ l ∨ x = c := by
  unfold classListAdd
  split
  · constructor
    · intro h; exact Or.inl h
    · rintro (h | h)
      · exact h
      · subst h; assumption
  · simp

theorem mem_classListRemove (c x : String) (l : List String) :
    x ∈ classListRemove c l ↔ x ∈ l ∧ x ≠ c := by
  simp [classListRemove]

theorem classListAdd_of_mem (c : String) (l : List String) (h : c ∈ l) :
    classListAdd c l = l := by
  simp [classListAdd, h]

/-! ## showModal and hideModal -/

theorem showModal_of_some (s : State) (modalId : String) (modal : Nat)
    (h : getElementById s.doc modalId = some modal) :
    showModal s modalId =
      { s with
        doc := { elements := (addClass s.doc modal "active").elements, body := lockedStyle },
        dispatched := s.dispatched ++
          [{ event := { name := "modalShown", bubbles := true, cancelable := true,
                        detailTarget := modal },
             target := modal,
             observed := { elements := (addClass s.doc modal "active").elements,
                           body := lockedStyle } }] } := by
  simp [showModal, h, _dispatchEvent, lockedStyle]

theorem hideModal_of_some (s : State) (modalId : String) (modal : Nat)
    (h : getElementById s.doc modalId = some modal) :
    hideModal s modalId =
      { s with
        doc := removeClass s.doc modal "active",
        timers := s.timers ++
          [{ callback := Callback.releaseIfNoneActive, delay := 300, due := s.now + 300 }],
        dispatched := s.dispatched ++
          [{ event := { name := "modalHidden", bubbles := true, cancelable := true,
                        detailTarget := modal },
             target := modal,
             observed := removeClass s.doc modal "active" }] } := by
  simp [hideModal, h, _dispatchEvent, setTimeout]

theorem showModal_of_none (s : State) (modalId : String)
    (h : getElementById s.doc modalId = none) : showModal s modalId = s := by
  simp [showModal, h]

theorem hideModal_of_none (s : State) (modalId : String)
    (h : getElementById s.doc modalId = none) : hideModal s modalId = s := by
  simp [hideModal, h]

theorem classListOf_showModal (s : State) (modalId : String) (modal : Nat)
    (h : getElementById s.doc modalId = some modal) (j : Nat) :
    classListOf (showModal s modalId).doc j =
      if j = modal then classListAdd "active" (classListOf s.doc j) else classListOf s.doc j := by
  rw [showModal_of_some s modalId modal h]
  have hlt := getElementById_lt _ _ _ h
  have := classListOf_addClass s.doc modal j "active"
  simp only [hlt, and_true] at this
  simpa [classListOf] using this

theorem classListOf_hideModal (s : State) (modalId : String) (modal : Nat)
    (h : getElementById s.doc modalId = some modal) (j : Nat) :
    classListOf (hideModal s modalId).doc j =
      if j = modal then classListRemove "active" (classListOf s.doc j) else classListOf s.doc j := by
  rw [hideModal_of_some s modalId modal h]
  exact classListOf_removeClass s.doc modal j "active"

theorem scrollLocked_showModal (s : State) (modalId : String) (modal : Nat)
    (h : getElementById s.doc modalId = some modal) : scrollLocked (showModal s modalId).doc := by
  rw [showModal_of_some s modalId modal h]
  simp [scrollLocked, lockedStyle]

theorem isActive_showModal (s : State) (modalId : String) (modal : Nat)
    (h : getElementById s.doc modalId = some modal) : isActive (showModal s modalId).doc modal := by
  unfold isActive
  rw [classListOf_showModal s modalId modal h]
  simp [mem_classListAdd]

theorem not_isActive_hideModal (s : State) (modalId : String) (modal : Nat)
    (h : getElementById s.doc modalId = some modal) :
    ¬ isActive (hideModal s modalId).doc modal := by
  unfold isActive
  rw [classListOf_hideModal s modalId modal h]
  simp [mem_classListRemove]

theorem notifications_dispatched_aux (s : State) (modalId : String) (modal : Nat)
    (h : getElementById s.doc modalId = some modal) :
    (showModal s modalId).dispatched = s.dispatched ++
      [{ event := { name := "modalShown", bubbles := true, cancelable := true,
                    detailTarget := modal },
         target := modal,
         observed := (showModal s modalId).doc }] := by
  rw [showModal_of_some s modalId modal h]

/-! ## Visible modals, hideAllModals and the timer callbacks -/

theorem mem_activeModals (d : Document) (i : Nat) :
    i ∈ activeModals d ↔ isModal d i ∧ isActive d i := by
  unfold activeModals querySelectorAll isModal isActive
  simp only [List.mem_filter, List.mem_range, hasClasses, List.all_cons, List.all_nil,
    Bool.and_true, Bool.and_eq_true, decide_eq_true_eq]
  constructor
  · exact fun h => h.2
  · intro h
    refine ⟨?_, h⟩
    by_contra hlt
    have hnone : d.elements[i]? = none := List.getElem?_eq_none (Nat.le_of_not_lt hlt)
    have : classListOf d i = [] := by simp [classListOf, hnone]
    rw [this] at h
    simp at h

theorem activeModals_eq_nil_iff (d : Document) :
    activeModals d = [] ↔ ∀ i, ¬ (isModal d i ∧ isActive d i) := by
  constructor
  · intro h i hi
    have := (mem_activeModals d i).2 hi
    rw [h] at this
    simp at this
  · intro h
    apply List.eq_nil_iff_forall_not_mem.2
    intro i hi
    exact h i ((mem_activeModals d i).1 hi)

theorem classListOf_of_elements_eq (d1 d2 : Document) (h : d1.elements = d2.elements) (i : Nat) :
    classListOf d1 i = classListOf d2 i := by
  unfold classListOf; rw [h]

theorem activeModals_of_elements_eq (d1 d2 : Document) (h : d1.elements = d2.elements) :
    activeModals d1 = activeModals d2 := by
  unfold activeModals querySelectorAll hasClasses classListOf; rw [h]

theorem getElementById_of_elements_eq (d1 d2 : Document) (h : d1.elements = d2.elements)
    (key : String) : getElementById d1 key = getElementById d2 key := by
  unfold getElementById; rw [h]

theorem nodup_activeModals (d : Document) : (activeModals d).Nodup := by
  unfold activeModals querySelectorAll
  exact (List.nodup_range _).filter _

theorem activeModals_removeClass (d : Document) (m : Nat) :
    activeModals (removeClass d m "active") = (activeModals d).filter (fun j => j != m) := by
  unfold activeModals querySelectorAll
  rw [List.filter_filter, length_removeClass]
  apply List.filter_congr
  intro j _
  simp only [hasClasses, List.all_cons, List.all_nil, Bool.and_true, classListOf_removeClass]
  by_cases hj : j = m
  · subst hj
    simp [mem_classListRemove]
  · simp [hj]

theorem classListOf_foldl_removeClass (c : String) (l : List Nat) (d : Document) (j : Nat) :
    classListOf (l.foldl (fun d m => removeClass d m c) d) j =
      if j ∈ l then classListRemove c (classListOf d j) else classListOf d j := by
  induction l generalizing d with
  | nil => simp
  | cons m ms ih =>
    simp only [List.foldl_cons, ih, classListOf_removeClass, List.mem_cons]
    by_cases hjm : j = m
    · subst hjm
      by_cases hmem : j ∈ ms
      · simp [hmem, classListRemove, List.filter_filter]
      · simp [hmem]
    · simp [hjm]

theorem body_foldl_removeClass (c : String) (l : List Nat) (d : Document) :
    (l.foldl (fun d m => removeClass d m c) d).body = d.body := by
  induction l generalizing d with
  | nil => rfl
  | cons m ms ih => simp [List.foldl_cons, ih]

theorem getElementById_foldl_removeClass (c : String) (l : List Nat) (d : Document)
    (key : String) :
    getElementById (l.foldl (fun d m => removeClass d m c) d) key = getElementById d key := by
  induction l generalizing d with
  | nil => rfl
  | cons m ms ih => simp [List.foldl_cons, ih]

theorem hideAllModals_eq (s : State) :
    hideAllModals s =
      { s with
        doc := (activeModals s.doc).foldl (fun d modal => removeClass d modal "active") s.doc,
        timers := s.timers ++
          [{ callback := Callback.release, delay := 300, due := s.now + 300 }] } := by
  simp [hideAllModals, setTimeout]

theorem classListOf_hideAllModals (s : State) (j : Nat) :
    classListOf (hideAllModals s).doc j =
      if j ∈ activeModals s.doc then classListRemove "active" (classListOf s.doc j)
      else classListOf s.doc j := by
  rw [hideAllModals_eq]
  exact classListOf_foldl_removeClass "active" _ s.doc j

theorem activeModals_hideAllModals (s : State) : activeModals (hideAllModals s).doc = [] := by
  rw [activeModals_eq_nil_iff]
  intro i hi
  unfold isModal isActive at hi
  rw [classListOf_hideAllModals] at hi
  by_cases hmem : i ∈ activeModals s.doc
  · simp [hmem, mem_classListRemove] at hi
  · simp only [hmem, if_false] at hi
    exact hmem ((mem_activeModals s.doc i).2 hi)

@[simp] theorem elements_releaseScroll (d : Document) : (releaseScroll d).elements = d.elements := rfl

@[simp] theorem body_releaseScroll (d : Document) : (releaseScroll d).body = clearedStyle := rfl

theorem elements_runCallback (cb : Callback) (d : Document) :
    (runCallback cb d).elements = d.elements := by
  cases cb
  · simp only [runCallback]; split <;> rfl
  · rfl

theorem runCallback_check_of_ne_nil (d : Document) (h : activeModals d ≠ []) :
    runCallback Callback.releaseIfNoneActive d = d := by
  simp [runCallback, h]

theorem runCallback_check_of_nil (d : Document) (h : activeModals d = []) :
    runCallback Callback.releaseIfNoneActive d = releaseScroll d := by
  simp [runCallback, h]

theorem elements_foldl_runCallback (l : List Timer) (d : Document) :
    (l.foldl (fun d tm => runCallback tm.callback d) d).elements = d.elements := by
  induction l generalizing d with
  | nil => rfl
  | cons t ts ih => simp [List.foldl_cons, ih, elements_runCallback]

theorem scrollReleased_iff (d : Document) : scrollReleased d ↔ d.body = clearedStyle := by
  unfold scrollReleased clearedStyle
  constructor
  · intro h
    cases hb : d.body with
    | mk o p w =>
      rw [hb] at h
      simp at h
      simp [h]
  · intro h
    rw [h]
    simp

theorem not_scrollLocked_of_released (d : Document) (h : scrollReleased d) : ¬ scrollLocked d := by
  intro hl
  have h1 := h.1
  rw [hl.1] at h1
  exact absurd h1 (by decide)

theorem foldl_runCallback_last (l : List Timer) (hl : l ≠ []) (d : Document) :
    scrollReleased (l.foldl (fun d tm => runCallback tm.callback d) d) ∨
      activeModals (l.foldl (fun d tm => runCallback tm.callback d) d) ≠ [] := by
  rcases List.eq_nil_or_concat l with h | ⟨L, b, h⟩
  · exact absurd h hl
  · subst h
    rw [List.concat_eq_append, List.foldl_append]
    simp only [List.foldl_cons, List.foldl_nil]
    generalize L.foldl (fun d tm => runCallback tm.callback d) d = d1
    cases hcb : b.callback with
    | release => left; simp [runCallback, scrollReleased_iff]
    | releaseIfNoneActive =>
      by_cases hnil : activeModals d1 = []
      · left; rw [runCallback_check_of_nil d1 hnil]; simp [scrollReleased_iff]
      · right; rw [runCallback_check_of_ne_nil d1 hnil]; exact hnil

/-! ## The passing of time -/

theorem mem_insertTimer (t x : Timer) (l : List Timer) :
    x ∈ insertTimer t l ↔ x = t ∨ x ∈ l := by
  induction l with
  | nil => simp [insertTimer]
  | cons y ys ih =>
    simp only [insertTimer]
    split
    · simp
    · simp only [List.mem_cons, ih]
      constructor
      · rintro (h | h | h)
        · exact Or.inr (Or.inl h)
        · exact Or.inl h
        · exact Or.inr (Or.inr h)
      · rintro (h | h | h)
        · exact Or.inr (Or.inl h)
        · exact Or.inl h
        · exact Or.inr (Or.inr h)

theorem mem_foldl_insertTimer (l acc : List Timer) (x : Timer) :
    x ∈ l.foldl (fun acc t => insertTimer t acc) acc ↔ x ∈ acc ∨ x ∈ l := by
  induction l generalizing acc with
  | nil => simp
  | cons y ys ih =>
    rw [List.foldl_cons, ih, mem_insertTimer, List.mem_cons]
    constructor
    · rintro ((h | h) | h)
      · exact Or.inr (Or.inl h)
      · exact Or.inl h
      · exact Or.inr (Or.inr h)
    · rintro (h | h | h)
      · exact Or.inl (Or.inr h)
      · exact Or.inl (Or.inl h)
      · exact Or.inr h

theorem insertTimer_of_le (t : Timer) (l : List Timer) (h : ∀ x ∈ l, x.due ≤ t.due) :
    insertTimer t l = l ++ [t] := by
  induction l with
  | nil => rfl
  | cons y ys ih =>
    have hy : ¬ t.due < y.due := Nat.not_lt.2 (h y (List.mem_cons_self _ _))
    simp only [insertTimer, hy, if_false, List.cons_append]
    rw [ih (fun x hx => h x (List.mem_cons_of_mem _ hx))]

theorem foldl_insertTimer_of_sorted (l acc : List Timer)
    (h : (acc ++ l).Pairwise (fun a b => a.due ≤ b.due)) :
    l.foldl (fun acc t => insertTimer t acc) acc = acc ++ l := by
  induction l generalizing acc with
  | nil => simp
  | cons y ys ih =>
    have hle : ∀ x ∈ acc, x.due ≤ y.due := by
      intro x hx
      exact (List.pairwise_append.1 h).2.2 x hx y (List.mem_cons_self _ _)
    rw [List.foldl_cons, insertTimer_of_le y acc hle, ih (acc ++ [y]) (by simpa using h)]
    simp

/-- Timers that were scheduled in the order of their due times fire in the order in which
they were scheduled. -/
theorem firingOrder_of_sorted (l : List Timer)
    (h : l.Pairwise (fun a b => a.due ≤ b.due)) : firingOrder l = l := by
  unfold firingOrder
  rw [foldl_insertTimer_of_sorted l [] (by simpa using h)]
  rfl

theorem mem_firingOrder (l : List Timer) (x : Timer) : x ∈ firingOrder l ↔ x ∈ l := by
  unfold firingOrder
  rw [mem_foldl_insertTimer]
  simp

@[simp] theorem firingOrder_nil : firingOrder [] = [] := rfl

@[simp] theorem firingOrder_singleton (t : Timer) : firingOrder [t] = [t] := rfl

theorem firingOrder_ne_nil (l : List Timer) (h : l ≠ []) : firingOrder l ≠ [] := by
  cases l with
  | nil => exact absurd rfl h
  | cons x xs =>
    intro hnil
    have : x ∈ firingOrder (x :: xs) := (mem_firingOrder _ x).2 (List.mem_cons_self _ _)
    rw [hnil] at this
    simp at this

theorem scrollReleased_runCallback (cb : Callback) (d : Document) (h : scrollReleased d) :
    scrollReleased (runCallback cb d) := by
  cases cb with
  | release => simp [runCallback, scrollReleased_iff]
  | releaseIfNoneActive =>
    simp only [runCallback]
    split
    · simp [scrollReleased_iff]
    · exact h

theorem scrollReleased_foldl_runCallback (l : List Timer) (d : Document)
    (h : scrollReleased d) :
    scrollReleased (l.foldl (fun d tm => runCallback tm.callback d) d) := by
  induction l generalizing d with
  | nil => exact h
  | cons t ts ih => exact ih _ (scrollReleased_runCallback _ d h)

/-- Once an unconditional release has run, the callbacks that run after it leave the body
fields cleared. -/
theorem scrollReleased_foldl_of_release_mem (l : List Timer) (t : Timer) (ht : t ∈ l)
    (hcb : t.callback = Callback.release) (d : Document) :
    scrollReleased (l.foldl (fun d tm => runCallback tm.callback d) d) := by
  induction l generalizing d with
  | nil => simp at ht
  | cons x xs ih =>
    rw [List.foldl_cons]
    rcases List.mem_cons.1 ht with h | h
    · subst h
      apply scrollReleased_foldl_runCallback
      rw [hcb]
      simp [runCallback, scrollReleased_iff]
    · exact ih h _

theorem elements_advance (s : State) (dt : Nat) :
    (advance s dt).doc.elements = s.doc.elements := by
  simp [advance, elements_foldl_runCallback]

@[simp] theorem dispatched_advance (s : State) (dt : Nat) :
    (advance s dt).dispatched = s.dispatched := rfl

theorem advance_of_timers_nil (s : State) (dt : Nat) (h : s.timers = []) :
    (advance s dt).doc = s.doc := by
  simp [advance, h]

/-- When a single timer is pending and due, the passing of time runs its callback. -/
theorem doc_advance_single (s : State) (dt : Nat) (t : Timer)
    (h : s.timers = [t]) (hdue : t.due ≤ s.now + dt) :
    (advance s dt).doc = runCallback t.callback s.doc := by
  simp [advance, h, List.filter, hdue]

/-- When the callback of a pending `hideAllModals` timer is due, the body fields are cleared
after the passing of time, whatever else was pending. -/
theorem scrollReleased_advance_of_release_due (s : State) (dt : Nat) (t : Timer)
    (ht : t ∈ s.timers) (hcb : t.callback = Callback.release) (hdue : t.due ≤ s.now + dt) :
    scrollReleased (advance s dt).doc := by
  simp only [advance]
  apply scrollReleased_foldl_of_release_mem _ t _ hcb
  rw [mem_firingOrder, List.mem_filter]
  exact ⟨ht, by simpa using hdue⟩

/-- A timer that is not yet due stays pending, behind the ones scheduled before it. -/
theorem timers_advance_concat (s : State) (dt : Nat) (ts : List Timer) (t : Timer)
    (h : s.timers = ts ++ [t]) (hdue : s.now + dt < t.due) :
    (advance s dt).timers = ts.filter (fun tm => !decide (tm.due ≤ s.now + dt)) ++ [t] := by
  simp [advance, h, List.filter_append, Nat.not_le.2 hdue]

/-! ## Fields an operation leaves alone -/

@[simp] theorem timers_showModal (s : State) (modalId : String) :
    (showModal s modalId).timers = s.timers := by
  unfold showModal; split <;> rfl

@[simp] theorem now_showModal (s : State) (modalId : String) :
    (showModal s modalId).now = s.now := by
  unfold showModal; split <;> rfl

@[simp] theorem listeners_showModal (s : State) (modalId : String) :
    (showModal s modalId).listeners = s.listeners := by
  unfold showModal; split <;> rfl

@[simp] theorem now_hideModal (s : State) (modalId : String) :
    (hideModal s modalId).now = s.now := by
  unfold hideModal; split <;> rfl

@[simp] theorem listeners_hideModal (s : State) (modalId : String) :
    (hideModal s modalId).listeners = s.listeners := by
  unfold hideModal; split <;> rfl

@[simp] theorem now_hideAllModals (s : State) : (hideAllModals s).now = s.now := rfl

@[simp] theorem listeners_hideAllModals (s : State) :
    (hideAllModals s).listeners = s.listeners := rfl

@[simp] theorem dispatched_hideAllModals (s : State) :
    (hideAllModals s).dispatched = s.dispatched := rfl

@[simp] theorem body_hideAllModals (s : State) : (hideAllModals s).doc.body = s.doc.body := by
  rw [hideAllModals_eq]
  exact body_foldl_removeClass "active" _ s.doc

@[simp] theorem now_advance (s : State) (dt : Nat) : (advance s dt).now = s.now + dt := rfl

@[simp] theorem listeners_advance (s : State) (dt : Nat) :
    (advance s dt).listeners = s.listeners := rfl

@[simp] theorem getElementById_showModal (s : State) (modalId key : String) :
    getElementById (showModal s modalId).doc key = getElementById s.doc key := by
  cases h : getElementById s.doc modalId with
  | none => rw [showModal_of_none s modalId h]
  | some m =>
    rw [showModal_of_some s modalId m h]
    exact (getElementById_of_elements_eq _ _ rfl key).trans (getElementById_addClass _ _ _ _)

@[simp] theorem getElementById_hideModal (s : State) (modalId key : String) :
    getElementById (hideModal s modalId).doc key = getElementById s.doc key := by
  cases h : getElementById s.doc modalId with
  | none => rw [hideModal_of_none s modalId h]
  | some m =>
    rw [hideModal_of_some s modalId m h]
    exact getElementById_removeClass _ _ _ _

@[simp] theorem getElementById_hideAllModals (s : State) (key : String) :
    getElementById (hideAllModals s).doc key = getElementById s.doc key := by
  rw [hideAllModals_eq]
  exact getElementById_foldl_removeClass "active" _ s.doc key

@[simp] theorem getElementById_advance (s : State) (dt : Nat) (key : String) :
    getElementById (advance s dt).doc key = getElementById s.doc key :=
  getElementById_of_elements_eq _ _ (elements_advance s dt) key

theorem classListOf_advance (s : State) (dt : Nat) (j : Nat) :
    classListOf (advance s dt).doc j = classListOf s.doc j :=
  classListOf_of_elements_eq _ _ (elements_advance s dt) j

theorem activeModals_advance (s : State) (dt : Nat) :
    activeModals (advance s dt).doc = activeModals s.doc :=
  activeModals_of_elements_eq _ _ (elements_advance s dt)

theorem body_hideModal (s : State) (modalId : String) :
    (hideModal s modalId).doc.body = s.doc.body := by
  unfold hideModal; split <;> rfl

theorem scrollLocked_of_body_eq (d1 d2 : Document) (h : d1.body = d2.body) :
    scrollLocked d1 ↔ scrollLocked d2 := by
  unfold scrollLocked; rw [h]

theorem activeModals_hideModal (s : State) (modalId : String) (modal : Nat)
    (h : getElementById s.doc modalId = some modal) :
    activeModals (hideModal s modalId).doc = (activeModals s.doc).filter (fun j => j != modal) := by
  rw [hideModal_of_some s modalId modal h]
  exact activeModals_removeClass s.doc modal

theorem isModal_showModal (s : State) (modalId : String) (j : Nat) :
    isModal (showModal s modalId).doc j ↔ isModal s.doc j := by
  cases h : getElementById s.doc modalId with
  | none => rw [showModal_of_none s modalId h]
  | some m =>
    unfold isModal
    rw [classListOf_showModal s modalId m h]
    split
    · simp [mem_classListAdd]
    · rfl

theorem isModal_hideModal (s : State) (modalId : String) (j : Nat) :
    isModal (hideModal s modalId).doc j ↔ isModal s.doc j := by
  cases h : getElementById s.doc modalId with
  | none => rw [hideModal_of_none s modalId h]
  | some m =>
    unfold isModal
    rw [classListOf_hideModal s modalId m h]
    split
    · simp [mem_classListRemove]
    · rfl

theorem isModal_hideAllModals (s : State) (j : Nat) :
    isModal (hideAllModals s).doc j ↔ isModal s.doc j := by
  unfold isModal
  rw [classListOf_hideAllModals]
  split
  · simp [mem_classListRemove]
  · rfl

theorem isModal_advance (s : State) (dt : Nat) (j : Nat) :
    isModal (advance s dt).doc j ↔ isModal s.doc j := by
  unfold isModal
  rw [classListOf_advance]

/-! ## Claims -/

/-- C1: when `getElementById` finds a modal element for the identifier, then right after
`showModal` that element carries the class `active`, the body has overflow `hidden`,
position `fixed` and width `100%`, and every other element has the class list it had
(so the visibility of every other modal is unchanged). -/
theorem showModal_makes_visible_and_locks (s : State) (modalId : String) (modal : Nat)
    (h : getElementById s.doc modalId = some modal) :
    isActive (showModal s modalId).doc modal ∧
    (showModal s modalId).doc.body.overflow = "hidden" ∧
    (showModal s modalId).doc.body.position = "fixed" ∧
    (showModal s modalId).doc.body.width = "100%" ∧
    (∀ j, j ≠ modal → (isActive (showModal s modalId).doc j ↔ isActive s.doc j)) ∧
    (∀ j, j ≠ modal → classListOf (showModal s modalId).doc j = classListOf s.doc j) := by
  refine ⟨isActive_showModal s modalId modal h, ?_, ?_, ?_, ?_, ?_⟩
  · exact (scrollLocked_showModal s modalId modal h).1
  · exact (scrollLocked_showModal s modalId modal h).2.1
  · exact (scrollLocked_showModal s modalId modal h).2.2
  · intro j hj
    unfold isActive
    rw [classListOf_showModal s modalId modal h, if_neg hj]
  · intro j hj
    rw [classListOf_showModal s modalId modal h, if_neg hj]

/-- C1, at a concrete input: `showModal("m1")` on the example page. -/
theorem showModal_makes_visible_and_locks_witness :
    getElementById exampleStart.doc "m1" = some 1 ∧
    isActive (showModal exampleStart "m1").doc 1 ∧
    (showModal exampleStart "m1").doc.body.overflow = "hidden" ∧
    (showModal exampleStart "m1").doc.body.position = "fixed" ∧
    (showModal exampleStart "m1").doc.body.width = "100%" ∧
    (∀ j, j ≠ 1 → (isActive (showModal exampleStart "m1").doc j ↔ isActive exampleStart.doc j)) ∧
    (∀ j, j ≠ 1 →
      classListOf (showModal exampleStart "m1").doc j = classListOf exampleStart.doc j) :=
  ⟨by decide, showModal_makes_visible_and_locks exampleStart "m1" 1 (by decide)⟩

/-- C5, amended: for every state and every identifier that is empty or that no element of
the document carries as its id, `showModal` and `hideModal` find nothing and return the state
they were given: no class list and no body field changes, no event is dispatched and no timer
is scheduled. -/
theorem missing_element_is_noop (s : State) (modalId : String)
    (h : modalId = "" ∨ ∀ e ∈ s.doc.elements, e.id ≠ modalId) :
    getElementById s.doc modalId = none ∧
    showModal s modalId = s ∧ hideModal s modalId = s ∧
    (showModal s modalId).doc = s.doc ∧ (hideModal s modalId).doc = s.doc ∧
    (showModal s modalId).dispatched = s.dispatched ∧
    (hideModal s modalId).dispatched = s.dispatched ∧
    (showModal s modalId).timers = s.timers ∧ (hideModal s modalId).timers = s.timers := by
  have hnone : getElementById s.doc modalId = none :=
    (getElementById_eq_none_iff s.doc modalId).2 h
  rw [showModal_of_none s modalId hnone, hideModal_of_none s modalId hnone]
  simp [hnone]

/-- C5 amended, at a concrete input: no element of the example page, with `m1` open, has the
id `nope`. -/
theorem missing_element_is_noop_witness :
    (∀ e ∈ (showModal exampleStart "m1").doc.elements, e.id ≠ "nope") ∧
    getElementById (showModal exampleStart "m1").doc "nope" = none ∧
    showModal (showModal exampleStart "m1") "nope" = showModal exampleStart "m1" ∧
    hideModal (showModal exampleStart "m1") "nope" = showModal exampleStart "m1" :=
  ⟨by decide,
   (missing_element_is_noop (showModal exampleStart "m1") "nope" (Or.inr (by decide))).1,
   (missing_element_is_noop (showModal exampleStart "m1") "nope" (Or.inr (by decide))).2.1,
   (missing_element_is_noop (showModal exampleStart "m1") "nope" (Or.inr (by decide))).2.2.1⟩

/-- C2: in a state where the modal found for the identifier is one of the visible modals and
the scroll-lock is engaged, `hideModal` leaves one visible modal fewer, keeps the lock and
schedules its callback 300 units ahead.  Whatever the document is when that callback fires, it
leaves the document as it is when some modal is visible then, and clears overflow, position and
width when none is.  Fired on the document the call left (which is what `advance 300` does when
nothing else is pending), the callback keeps the lock if one of the other modals is visible and
releases it only if none is. -/
theorem hideModal_release_waits_for_last_modal (s : State) (modalId : String) (modal : Nat)
    (h : getElementById s.doc modalId = some modal)
    (hvis : modal ∈ activeModals s.doc) (hlock : scrollLocked s.doc) :
    (activeModals (hideModal s modalId).doc).length + 1 = (activeModals s.doc).length ∧
    (∀ j, j ∈ activeModals (hideModal s modalId).doc ↔ j ∈ activeModals s.doc ∧ j ≠ modal) ∧
    scrollLocked (hideModal s modalId).doc ∧
    (hideModal s modalId).timers = s.timers ++
      [{ callback := Callback.releaseIfNoneActive, delay := 300, due := s.now + 300 }] ∧
    (∀ d : Document,
      (activeModals d ≠ [] → runCallback Callback.releaseIfNoneActive d = d) ∧
      (activeModals d = [] → scrollReleased (runCallback Callback.releaseIfNoneActive d))) ∧
    (s.timers = [] →
      (advance (hideModal s modalId) 300).doc =
        runCallback Callback.releaseIfNoneActive (hideModal s modalId).doc) ∧
    ((∃ j, j ∈ activeModals s.doc ∧ j ≠ modal) →
      scrollLocked (runCallback Callback.releaseIfNoneActive (hideModal s modalId).doc)) ∧
    (scrollReleased (runCallback Callback.releaseIfNoneActive (hideModal s modalId).doc) ↔
      ∀ j, j ∈ activeModals s.doc → j = modal) := by
  have hmem : ∀ j, j ∈ activeModals (hideModal s modalId).doc ↔
      j ∈ activeModals s.doc ∧ j ≠ modal := by
    intro j
    rw [activeModals_hideModal s modalId modal h]
    simp [List.mem_filter]
  have hlock1 : scrollLocked (hideModal s modalId).doc :=
    (scrollLocked_of_body_eq _ _ (body_hideModal s modalId)).2 hlock
  refine ⟨?_, hmem, hlock1, ?_, ?_, ?_, ?_, ?_⟩
  · rw [activeModals_hideModal s modalId modal h,
      ← (nodup_activeModals s.doc).erase_eq_filter modal, List.length_erase_of_mem hvis]
    have : 0 < (activeModals s.doc).length := List.length_pos_of_mem hvis
    omega
  · rw [hideModal_of_some s modalId modal h]
  · intro d
    refine ⟨runCallback_check_of_ne_nil d, fun hnil => ?_⟩
    rw [runCallback_check_of_nil d hnil]
    simp [scrollReleased_iff]
  · intro hts
    have ht : (hideModal s modalId).timers =
        [{ callback := Callback.releaseIfNoneActive, delay := 300, due := s.now + 300 }] := by
      rw [hideModal_of_some s modalId modal h]; simp [hts]
    rw [doc_advance_single _ 300 _ ht (by simp)]
  · rintro ⟨j, hj, hne⟩
    have : activeModals (hideModal s modalId).doc ≠ [] :=
      List.ne_nil_of_mem ((hmem j).2 ⟨hj, hne⟩)
    rw [runCallback_check_of_ne_nil _ this]
    exact hlock1
  · constructor
    · intro hrel j hj
      by_contra hne
      have hnn : activeModals (hideModal s modalId).doc ≠ [] :=
        List.ne_nil_of_mem ((hmem j).2 ⟨hj, hne⟩)
      rw [runCallback_check_of_ne_nil _ hnn] at hrel
      exact not_scrollLocked_of_released _ hrel hlock1
    · intro hall
      have hnil : activeModals (hideModal s modalId).doc = [] := by
        apply List.eq_nil_iff_forall_not_mem.2
        intro j hj
        exact ((hmem j).1 hj).2 (hall j ((hmem j).1 hj).1)
      rw [runCallback_check_of_nil _ hnil]
      simp [scrollReleased_iff]

/-- C2, at a concrete input: both overlays of the example page are open and `m1` is closed. -/
theorem hideModal_release_waits_for_last_modal_witness :
    getElementById exampleBothOpen.doc "m1" = some 1 ∧
    1 ∈ activeModals exampleBothOpen.doc ∧ scrollLocked exampleBothOpen.doc ∧
    (activeModals (hideModal exampleBothOpen "m1").doc).length + 1 =
      (activeModals exampleBothOpen.doc).length ∧
    (scrollReleased (runCallback Callback.releaseIfNoneActive (hideModal exampleBothOpen "m1").doc) ↔
      ∀ j, j ∈ activeModals exampleBothOpen.doc → j = 1) :=
  ⟨by decide, by decide, by decide,
   (hideModal_release_waits_for_last_modal exampleBothOpen "m1" 1
      (by decide) (by decide) (by decide)).1,
   (hideModal_release_waits_for_last_modal exampleBothOpen "m1" 1
      (by decide) (by decide) (by decide)).2.2.2.2.2.2.2⟩

theorem foldl_handleKeydown_of_click (key : String) (l : List Listener)
    (hl : ∀ x ∈ l, x ≠ Listener.documentKeydown) (s : State) :
    l.foldl (fun st x => handleKeydown x key st) s = s := by
  induction l generalizing s with
  | nil => rfl
  | cons x xs ih =>
    have hx : handleKeydown x key s = s := by
      cases x with
      | documentKeydown => exact absurd rfl (hl _ (List.mem_cons_self _ _))
      | widgetClick b => rfl
      | closeClick b => rfl
      | overlayClick m => rfl
    rw [List.foldl_cons, hx]
    exact ih (fun y hy => hl y (List.mem_cons_of_mem _ hy)) s

theorem listeners_init (s : State) :
    (init s).listeners = s.listeners
      ++ (querySelectorAll s.doc ["floating-btn"]).map Listener.widgetClick
      ++ (querySelectorAll s.doc ["close-btn"]).map Listener.closeClick
      ++ (querySelectorAll s.doc ["modal-overlay"]).map Listener.overlayClick
      ++ [Listener.documentKeydown] := rfl

@[simp] theorem doc_init (s : State) : (init s).doc = s.doc := rfl

/-- C4: `hideAllModals` is a total function of the state (no step of it can fail).  Right after
it no modal is visible, whatever their number was, and its callback is scheduled 300 units
ahead; once 300 units or more have passed, overflow, position and width of the body are cleared
and no modal is visible.  After `init` on a page with nothing bound yet, a keydown of `Escape`
is exactly one call of `hideAllModals`. -/
theorem hideAllModals_closes_all_and_releases (s : State) :
    activeModals (hideAllModals s).doc = [] ∧
    (∀ i, isModal s.doc i → ¬ isActive (hideAllModals s).doc i) ∧
    (hideAllModals s).timers = s.timers ++
      [{ callback := Callback.release, delay := 300, due := s.now + 300 }] ∧
    (∀ dt, 300 ≤ dt →
      scrollReleased (advance (hideAllModals s) dt).doc ∧
      activeModals (advance (hideAllModals s) dt).doc = []) ∧
    (s.listeners = [] → keydown (init s) "Escape" = hideAllModals (init s)) := by
  refine ⟨activeModals_hideAllModals s, ?_, ?_, ?_, ?_⟩
  · intro i hi hact
    have hm : isModal (hideAllModals s).doc i := (isModal_hideAllModals s i).2 hi
    have := (mem_activeModals _ i).2 ⟨hm, hact⟩
    rw [activeModals_hideAllModals] at this
    simp at this
  · rw [hideAllModals_eq]
  · intro dt hdt
    have ht : (hideAllModals s).timers = s.timers ++
        [{ callback := Callback.release, delay := 300, due := s.now + 300 }] := by
      rw [hideAllModals_eq]
    refine ⟨?_, ?_⟩
    · exact scrollReleased_advance_of_release_due _ dt
        { callback := Callback.release, delay := 300, due := s.now + 300 }
        (by rw [ht]; simp) rfl (by simp; omega)
    · rw [activeModals_advance, activeModals_hideAllModals]
  · intro hl
    have hclick : ∀ x ∈ (querySelectorAll s.doc ["floating-btn"]).map Listener.widgetClick
        ++ (querySelectorAll s.doc ["close-btn"]).map Listener.closeClick
        ++ (querySelectorAll s.doc ["modal-overlay"]).map Listener.overlayClick,
        x ≠ Listener.documentKeydown := by
      intro x hx
      simp only [List.mem_append, List.mem_map] at hx
      rcases hx with (⟨_, _, rfl⟩ | ⟨_, _, rfl⟩) | ⟨_, _, rfl⟩ <;> simp
    unfold keydown
    rw [listeners_init, hl, List.nil_append, List.foldl_append,
      foldl_handleKeydown_of_click "Escape" _ hclick]
    simp [handleKeydown]

/-- C4, at a concrete input: Escape on the example page with both overlays open. -/
theorem hideAllModals_closes_all_and_releases_witness :
    exampleStart.listeners = [] ∧
    keydown (init exampleStart) "Escape" = hideAllModals (init exampleStart) ∧
    activeModals (hideAllModals exampleBothOpen).doc = [] ∧
    scrollReleased (advance (hideAllModals exampleBothOpen) 300).doc :=
  ⟨rfl,
   (hideAllModals_closes_all_and_releases exampleStart).2.2.2.2 rfl,
   (hideAllModals_closes_all_and_releases exampleBothOpen).1,
   ((hideAllModals_closes_all_and_releases exampleBothOpen).2.2.2.1 300 (Nat.le_refl 300)).1⟩

/-- C6: for the modal found for the identifier, `showModal` appends exactly one event to the
dispatched ones: `modalShown`, bubbling, cancelable, with the modal as detail and as target,
and what a listener observes is the final document, in which the modal is visible and the
lock is set.  `hideModal` appends exactly one event, `modalHidden`, with the same flags, detail
and target; a listener observes the modal already not visible, and the call returns with the
callback still pending.  Neither `hideAllModals` nor the passing of time (the callbacks)
dispatches anything. -/
theorem notifications_dispatched (s : State) (modalId : String) (modal : Nat)
    (h : getElementById s.doc modalId = some modal) :
    (showModal s modalId).dispatched = s.dispatched ++
      [{ event := { name := "modalShown", bubbles := true, cancelable := true,
                    detailTarget := modal },
         target := modal,
         observed := (showModal s modalId).doc }] ∧
    isActive (showModal s modalId).doc modal ∧ scrollLocked (showModal s modalId).doc ∧
    (hideModal s modalId).dispatched = s.dispatched ++
      [{ event := { name := "modalHidden", bubbles := true, cancelable := true,
                    detailTarget := modal },
         target := modal,
         observed := (hideModal s modalId).doc }] ∧
    ¬ isActive (hideModal s modalId).doc modal ∧
    (hideModal s modalId).timers = s.timers ++
      [{ callback := Callback.releaseIfNoneActive, delay := 300, due := s.now + 300 }] ∧
    (hideAllModals s).dispatched = s.dispatched ∧
    (∀ (st : State) (dt : Nat), (advance st dt).dispatched = st.dispatched) := by
  refine ⟨?_, isActive_showModal s modalId modal h, scrollLocked_showModal s modalId modal h,
    ?_, not_isActive_hideModal s modalId modal h, ?_, rfl, fun _ _ => rfl⟩
  · rw [showModal_of_some s modalId modal h]
  · rw [hideModal_of_some s modalId modal h]
  · rw [hideModal_of_some s modalId modal h]

/-- C6, at a concrete input: `m1` of the example page is shown, then hidden. -/
theorem notifications_dispatched_witness :
    getElementById (showModal exampleStart "m1").doc "m1" = some 1 ∧
    (hideModal (showModal exampleStart "m1") "m1").dispatched =
      (showModal exampleStart "m1").dispatched ++
        [{ event := { name := "modalHidden", bubbles := true, cancelable := true,
                      detailTarget := 1 },
           target := 1,
           observed := (hideModal (showModal exampleStart "m1") "m1").doc }] ∧
    (hideAllModals (showModal exampleStart "m1")).dispatched =
      (showModal exampleStart "m1").dispatched :=
  ⟨by decide,
   (notifications_dispatched (showModal exampleStart "m1") "m1" 1 (by decide)).2.2.2.1,
   (notifications_dispatched (showModal exampleStart "m1") "m1" 1 (by decide)).2.2.2.2.2.2.1⟩

theorem scrollLocked_iff (d : Document) : scrollLocked d ↔ d.body = lockedStyle := by
  unfold scrollLocked lockedStyle
  constructor
  · intro h
    cases hb : d.body with
    | mk o p w =>
      rw [hb] at h
      simp at h
      simp [h]
  · intro h
    rw [h]
    simp

theorem showModal_doc_of_visible_locked (s : State) (modalId : String) (modal : Nat)
    (h : getElementById s.doc modalId = some modal)
    (hact : isActive s.doc modal) (hlock : scrollLocked s.doc) :
    (showModal s modalId).doc = s.doc := by
  rw [showModal_of_some s modalId modal h]
  have hel : (addClass s.doc modal "active").elements = s.doc.elements := by
    unfold addClass
    apply modifyAt_eq_self
    intro e he
    have : "active" ∈ e.classList := by
      unfold isActive classListOf at hact
      simpa [he] using hact
    simp [classListAdd_of_mem _ _ this]
  have hb : s.doc.body = lockedStyle := (scrollLocked_iff s.doc).1 hlock
  rw [hel, ← hb]

/-- C8, refuted as stated: on the example page the second `showModal("m1")` dispatches a second
`modalShown` event, so two calls in a row do not leave the state one call leaves, and the
call on the already visible, locked modal is not without effect. -/
theorem showModal_twice_differs_from_once :
    showModal (showModal exampleStart "m1") "m1" ≠ showModal exampleStart "m1" ∧
    isActive (showModal exampleStart "m1").doc 1 ∧
    scrollLocked (showModal exampleStart "m1").doc ∧
    (showModal exampleStart "m1").dispatched.length = 1 ∧
    (showModal (showModal exampleStart "m1") "m1").dispatched.length = 2 := by
  decide

/-- C8, amended: `showModal` is idempotent on the document.  Two calls in a row leave the class
lists and the body style (and the pending timers, the listeners and the clock) that one call
leaves, and on a modal that is already visible with the lock engaged the call leaves the
document as it is.  Each call on an existing modal still dispatches its own `modalShown`
event. -/
theorem showModal_idempotent_on_document (s : State) (modalId : String) :
    (showModal (showModal s modalId) modalId).doc = (showModal s modalId).doc ∧
    (showModal (showModal s modalId) modalId).timers = (showModal s modalId).timers ∧
    (showModal (showModal s modalId) modalId).listeners = (showModal s modalId).listeners ∧
    (showModal (showModal s modalId) modalId).now = (showModal s modalId).now ∧
    (∀ modal, getElementById s.doc modalId = some modal →
      (showModal (showModal s modalId) modalId).dispatched =
        (showModal s modalId).dispatched ++
          [{ event := { name := "modalShown", bubbles := true, cancelable := true,
                        detailTarget := modal },
             target := modal,
             observed := (showModal s modalId).doc }]) ∧
    (∀ modal, getElementById s.doc modalId = some modal →
      isActive s.doc modal → scrollLocked s.doc →
        (showModal s modalId).doc = s.doc ∧
        (showModal s modalId).dispatched = s.dispatched ++
          [{ event := { name := "modalShown", bubbles := true, cancelable := true,
                        detailTarget := modal },
             target := modal,
             observed := s.doc }]) := by
  have hvis : ∀ (st : State) (modal : Nat), getElementById st.doc modalId = some modal →
      isActive st.doc modal → scrollLocked st.doc →
        (showModal st modalId).doc = st.doc ∧
        (showModal st modalId).dispatched = st.dispatched ++
          [{ event := { name := "modalShown", bubbles := true, cancelable := true,
                        detailTarget := modal },
             target := modal,
             observed := st.doc }] := by
    intro st modal h hact hlock
    have hdoc := showModal_doc_of_visible_locked st modalId modal h hact hlock
    refine ⟨hdoc, ?_⟩
    have hd := (notifications_dispatched_aux st modalId modal h)
    rw [hd, hdoc]
  refine ⟨?_, by simp, by simp, by simp, ?_, fun modal h hact hlock => hvis s modal h hact hlock⟩
  · cases h : getElementById s.doc modalId with
    | none => rw [showModal_of_none s modalId h, showModal_of_none s modalId h]
    | some modal =>
      exact (hvis (showModal s modalId) modal (by simpa using h)
        (isActive_showModal s modalId modal h) (scrollLocked_showModal s modalId modal h)).1
  · intro modal h
    exact (hvis (showModal s modalId) modal (by simpa using h)
      (isActive_showModal s modalId modal h) (scrollLocked_showModal s modalId modal h)).2

/-- C8 amended, at a concrete input: `m1` of the example page, already shown. -/
theorem showModal_idempotent_on_document_witness :
    getElementById (showModal exampleStart "m1").doc "m1" = some 1 ∧
    isActive (showModal exampleStart "m1").doc 1 ∧
    scrollLocked (showModal exampleStart "m1").doc ∧
    (showModal (showModal exampleStart "m1") "m1").doc = (showModal exampleStart "m1").doc :=
  ⟨by decide, by decide, by decide,
   ((showModal_idempotent_on_document (showModal exampleStart "m1") "m1").2.2.2.2.2 1
      (by decide) (by decide) (by decide)).1⟩

theorem mem_activeModals_showModal (s : State) (modalId : String) (modal : Nat)
    (h : getElementById s.doc modalId = some modal) (hm : isModal s.doc modal) :
    modal ∈ activeModals (showModal s modalId).doc :=
  (mem_activeModals _ _).2
    ⟨(isModal_showModal s modalId modal).2 hm, isActive_showModal s modalId modal h⟩

/-- After a modal is closed and, less than 300 units later, shown again, the callback of the
close finds it among the visible modals and leaves the document as it is. -/
theorem reopen_keeps_lock (s : State) (modalId : String) (modal : Nat) (dt : Nat)
    (h : getElementById s.doc modalId = some modal) (hm : isModal s.doc modal) :
    runCallback Callback.releaseIfNoneActive
        (showModal (advance (hideModal s modalId) dt) modalId).doc =
      (showModal (advance (hideModal s modalId) dt) modalId).doc ∧
    modal ∈ activeModals (showModal (advance (hideModal s modalId) dt) modalId).doc ∧
    scrollLocked (showModal (advance (hideModal s modalId) dt) modalId).doc := by
  have h2 : getElementById (advance (hideModal s modalId) dt).doc modalId = some modal := by
    simpa using h
  have hm2 : isModal (advance (hideModal s modalId) dt).doc modal :=
    (isModal_advance _ dt modal).2 ((isModal_hideModal s modalId modal).2 hm)
  have hmem := mem_activeModals_showModal _ modalId modal h2 hm2
  exact ⟨runCallback_check_of_ne_nil _ (List.ne_nil_of_mem hmem), hmem,
    scrollLocked_showModal _ modalId modal h2⟩

/-- C9, refuted as stated: there is no state, visible modal and delay below 300 for which the
callback of `hideModal`, fired after the modal has been shown again, leaves the modal visible
with overflow, position and width cleared. -/
theorem no_release_after_reopen :
    ¬ ∃ (s : State) (modalId : String) (modal : Nat) (dt : Nat),
      getElementById s.doc modalId = some modal ∧ modal ∈ activeModals s.doc ∧ dt < 300 ∧
      isActive (runCallback Callback.releaseIfNoneActive
        (showModal (advance (hideModal s modalId) dt) modalId).doc) modal ∧
      scrollReleased (runCallback Callback.releaseIfNoneActive
        (showModal (advance (hideModal s modalId) dt) modalId).doc) := by
  rintro ⟨s, modalId, modal, dt, h, hvis, _, _, hrel⟩
  have hm : isModal s.doc modal := ((mem_activeModals _ _).1 hvis).1
  obtain ⟨heq, _, hlock⟩ := reopen_keeps_lock s modalId modal dt h hm
  rw [heq] at hrel
  exact not_scrollLocked_of_released _ hrel hlock

/-- C9, amended: when a visible modal is closed with `hideModal` and shown again less than 300
units later, the callback of the close is still pending (nothing cancels it), and when it
fires it finds the modal visible and changes nothing: the modal is visible and the lock stays
engaged.  The same holds whenever it fires on a document in which the modal is visible.  With
nothing else pending, that is the state once the 300 units have passed. -/
theorem reopen_before_delay_keeps_lock (s : State) (modalId : String) (modal : Nat) (dt : Nat)
    (h : getElementById s.doc modalId = some modal)
    (hvis : modal ∈ activeModals s.doc) (hdt : dt < 300) :
    (∃ ts, (showModal (advance (hideModal s modalId) dt) modalId).timers = ts ++
      [{ callback := Callback.releaseIfNoneActive, delay := 300, due := s.now + 300 }]) ∧
    runCallback Callback.releaseIfNoneActive
        (showModal (advance (hideModal s modalId) dt) modalId).doc =
      (showModal (advance (hideModal s modalId) dt) modalId).doc ∧
    modal ∈ activeModals (showModal (advance (hideModal s modalId) dt) modalId).doc ∧
    scrollLocked (showModal (advance (hideModal s modalId) dt) modalId).doc ∧
    (∀ d : Document, modal ∈ activeModals d → runCallback Callback.releaseIfNoneActive d = d) ∧
    (s.timers = [] →
      (advance (showModal (advance (hideModal s modalId) dt) modalId) (300 - dt)).doc =
        (showModal (advance (hideModal s modalId) dt) modalId).doc ∧
      (advance (showModal (advance (hideModal s modalId) dt) modalId) (300 - dt)).timers = []) := by
  have hm : isModal s.doc modal := ((mem_activeModals _ _).1 hvis).1
  obtain ⟨heq, hmem, hlock⟩ := reopen_keeps_lock s modalId modal dt h hm
  have ht : (hideModal s modalId).timers = s.timers ++
      [{ callback := Callback.releaseIfNoneActive, delay := 300, due := s.now + 300 }] := by
    rw [hideModal_of_some s modalId modal h]
  have ht2 := timers_advance_concat (hideModal s modalId) dt _ _ ht (by simp; omega)
  refine ⟨⟨_, by rw [timers_showModal]; exact ht2⟩, heq, hmem, hlock,
    fun d hd => runCallback_check_of_ne_nil d (List.ne_nil_of_mem hd), ?_⟩
  intro hts
  have ht3 : (showModal (advance (hideModal s modalId) dt) modalId).timers =
      [{ callback := Callback.releaseIfNoneActive, delay := 300, due := s.now + 300 }] := by
    rw [timers_showModal, ht2, hts]; rfl
  constructor
  · rw [doc_advance_single _ (300 - dt) _ ht3 (by simp; omega)]
    exact heq
  · have hnow : (showModal (advance (hideModal s modalId) dt) modalId).now + (300 - dt) =
        s.now + 300 := by
      simp; omega
    show List.filter _ (showModal (advance (hideModal s modalId) dt) modalId).timers = []
    rw [ht3, hnow]
    simp [List.filter]

/-- C9 amended, at a concrete input: `m1` of the example page is shown, closed, shown again
100 units later, and 200 more units pass. -/
theorem reopen_before_delay_keeps_lock_witness :
    getElementById (showModal exampleStart "m1").doc "m1" = some 1 ∧
    1 ∈ activeModals (showModal exampleStart "m1").doc ∧ 100 < 300 ∧
    (showModal exampleStart "m1").timers = [] ∧
    1 ∈ activeModals
      (showModal (advance (hideModal (showModal exampleStart "m1") "m1") 100) "m1").doc ∧
    scrollLocked
      (showModal (advance (hideModal (showModal exampleStart "m1") "m1") 100) "m1").doc ∧
    (advance (showModal (advance (hideModal (showModal exampleStart "m1") "m1") 100) "m1")
        (300 - 100)).doc =
      (showModal (advance (hideModal (showModal exampleStart "m1") "m1") 100) "m1").doc :=
  ⟨by decide, by decide, by decide, rfl,
   (reopen_before_delay_keeps_lock (showModal exampleStart "m1") "m1" 1 100
      (by decide) (by decide) (by decide)).2.2.1,
   (reopen_before_delay_keeps_lock (showModal exampleStart "m1") "m1" 1 100
      (by decide) (by decide) (by decide)).2.2.2.1,
   ((reopen_before_delay_keeps_lock (showModal exampleStart "m1") "m1" 1 100
      (by decide) (by decide) (by decide)).2.2.2.2.2 rfl).1⟩

/-- C10: for the modal found for the identifier, if `hideAllModals` is called, `showModal` is
called less than 300 units later, and time then passes until the 300 units are over, the modal
is visible while overflow, position and width of the body are all cleared: the callback of
`hideAllModals` clears them whatever the visible modals are. -/
theorem hideAll_release_unlocks_reopened_modal (s : State) (modalId : String) (modal : Nat)
    (dt dt2 : Nat) (h : getElementById s.doc modalId = some modal)
    (hdt : dt < 300) (hdt2 : 300 ≤ dt + dt2) :
    isActive (advance (showModal (advance (hideAllModals s) dt) modalId) dt2).doc modal ∧
    scrollReleased (advance (showModal (advance (hideAllModals s) dt) modalId) dt2).doc ∧
    (isModal s.doc modal →
      modal ∈ activeModals (advance (showModal (advance (hideAllModals s) dt) modalId) dt2).doc) ∧
    (∀ d : Document, runCallback Callback.release d = releaseScroll d) := by
  have h2 : getElementById (advance (hideAllModals s) dt).doc modalId = some modal := by
    simpa using h
  have hact : isActive (advance (showModal (advance (hideAllModals s) dt) modalId) dt2).doc
      modal := by
    unfold isActive
    rw [classListOf_advance]
    exact isActive_showModal _ modalId modal h2
  have ht : (hideAllModals s).timers = s.timers ++
      [{ callback := Callback.release, delay := 300, due := s.now + 300 }] := by
    rw [hideAllModals_eq]
  have ht2 := timers_advance_concat (hideAllModals s) dt _ _ ht (by simp; omega)
  have ht3 : (showModal (advance (hideAllModals s) dt) modalId).timers = _ :=
    (timers_showModal _ _).trans ht2
  refine ⟨hact, ?_, ?_, fun _ => rfl⟩
  · exact scrollReleased_advance_of_release_due _ dt2
      { callback := Callback.release, delay := 300, due := s.now + 300 }
      (by rw [ht3]; simp) rfl (by simp; omega)
  · intro hm
    refine (mem_activeModals _ _).2 ⟨?_, hact⟩
    rw [isModal_advance, isModal_showModal, isModal_advance, isModal_hideAllModals]
    exact hm

/-- C10, at a concrete input: on the example page with `m1` open, `hideAllModals`, then
`showModal("m1")` 100 units later, then 200 more units. -/
theorem hideAll_release_unlocks_reopened_modal_witness :
    getElementById (showModal exampleStart "m1").doc "m1" = some 1 ∧ 100 < 300 ∧
    300 ≤ 100 + 200 ∧
    isActive (advance (showModal (advance (hideAllModals (showModal exampleStart "m1")) 100) "m1")
      200).doc 1 ∧
    scrollReleased (advance (showModal (advance (hideAllModals (showModal exampleStart "m1")) 100)
      "m1") 200).doc :=
  ⟨by decide, by decide, by decide,
   (hideAll_release_unlocks_reopened_modal (showModal exampleStart "m1") "m1" 1 100 200
      (by decide) (by decide) (by decide)).1,
   (hideAll_release_unlocks_reopened_modal (showModal exampleStart "m1") "m1" 1 100 200
      (by decide) (by decide) (by decide)).2.1⟩

/-! ## The lock along sequences of calls -/

theorem getElementById_step (s : State) (a : Action) (key : String) :
    getElementById (step s a).doc key = getElementById s.doc key := by
  cases a <;> simp [step]

theorem isModal_step (s : State) (a : Action) (j : Nat) :
    isModal (step s a).doc j ↔ isModal s.doc j := by
  cases a with
  | showModal modalId => exact isModal_showModal s modalId j
  | hideModal modalId => exact isModal_hideModal s modalId j
  | hideAllModals => exact isModal_hideAllModals s j
  | advance dt => exact isModal_advance s dt j

theorem filter_not_eq_self_of_filter_eq_nil (p : Timer → Bool) (l : List Timer)
    (h : l.filter p = []) : l.filter (fun t => !p t) = l := by
  rw [List.filter_eq_self]
  intro t ht
  have := (List.filter_eq_nil_iff.1 h) t ht
  simpa using this

/-- One step keeps: a set lock has a visible modal or a pending callback behind it. -/
theorem step_keeps_lock_accounted (s : State) (a : Action)
    (hinv : scrollLocked s.doc → activeModals s.doc ≠ [] ∨ s.timers ≠ [])
    (hvalid : ∀ modalId m, a = Action.showModal modalId →
      getElementById s.doc modalId = some m → isModal s.doc m) :
    scrollLocked (step s a).doc → activeModals (step s a).doc ≠ [] ∨ (step s a).timers ≠ [] := by
  cases a with
  | showModal modalId =>
    intro hl
    cases h : getElementById s.doc modalId with
    | none =>
      simp only [step, showModal_of_none s modalId h] at hl ⊢
      exact hinv hl
    | some m =>
      left
      exact List.ne_nil_of_mem
        (mem_activeModals_showModal s modalId m h (hvalid modalId m rfl h))
  | hideModal modalId =>
    intro hl
    cases h : getElementById s.doc modalId with
    | none =>
      simp only [step, hideModal_of_none s modalId h] at hl ⊢
      exact hinv hl
    | some m =>
      right
      simp [step, hideModal_of_some s modalId m h]
  | hideAllModals =>
    intro _
    right
    simp [step, hideAllModals_eq]
  | advance dt =>
    intro hl
    simp only [step] at hl ⊢
    by_cases hdue : s.timers.filter (fun tm => decide (tm.due ≤ s.now + dt)) = []
    · have hdoc : (advance s dt).doc = s.doc := by simp [advance, hdue]
      have htm : (advance s dt).timers = s.timers :=
        filter_not_eq_self_of_filter_eq_nil _ _ hdue
      rw [hdoc] at hl ⊢
      rw [htm]
      exact hinv hl
    · rcases foldl_runCallback_last _ (firingOrder_ne_nil _ hdue) s.doc with hrel | hne
      · exact absurd hl (not_scrollLocked_of_released _ hrel)
      · left; exact hne

theorem run_keeps_lock_accounted (actions : List Action) (s : State)
    (hinv : scrollLocked s.doc → activeModals s.doc ≠ [] ∨ s.timers ≠ [])
    (hvalid : ∀ modalId m, Action.showModal modalId ∈ actions →
      getElementById s.doc modalId = some m → isModal s.doc m) :
    scrollLocked (run s actions).doc →
      activeModals (run s actions).doc ≠ [] ∨ (run s actions).timers ≠ [] := by
  induction actions generalizing s with
  | nil => exact hinv
  | cons a rest ih =>
    show scrollLocked (run (step s a) rest).doc → _
    apply ih (step s a)
    · exact step_keeps_lock_accounted s a hinv
        (fun modalId m ha => hvalid modalId m (ha ▸ List.mem_cons_self _ _))
    · intro modalId m hmem hget
      rw [getElementById_step] at hget
      exact (isModal_step s a m).2 (hvalid modalId m (List.mem_cons_of_mem _ hmem) hget)

theorem foldl_check_keeps_locked (l : List Timer)
    (hl : ∀ t ∈ l, t.callback = Callback.releaseIfNoneActive) (d : Document)
    (hinv : activeModals d ≠ [] → scrollLocked d) :
    activeModals (l.foldl (fun d tm => runCallback tm.callback d) d) ≠ [] →
      scrollLocked (l.foldl (fun d tm => runCallback tm.callback d) d) := by
  induction l generalizing d with
  | nil => exact hinv
  | cons t ts ih =>
    rw [List.foldl_cons]
    apply ih (fun x hx => hl x (List.mem_cons_of_mem _ hx))
    rw [hl t (List.mem_cons_self _ _)]
    by_cases hnil : activeModals d = []
    · intro hne
      rw [activeModals_of_elements_eq _ d (elements_runCallback _ d)] at hne
      exact absurd hnil hne
    · rw [runCallback_check_of_ne_nil d hnil]
      exact hinv

/-- One step other than `hideAllModals` keeps: a visible modal has the lock set, and only
callbacks of `hideModal` are pending. -/
theorem step_keeps_visible_locked (s : State) (a : Action) (ha : a ≠ Action.hideAllModals)
    (hinv : activeModals s.doc ≠ [] → scrollLocked s.doc)
    (htm : ∀ t ∈ s.timers, t.callback = Callback.releaseIfNoneActive) :
    (activeModals (step s a).doc ≠ [] → scrollLocked (step s a).doc) ∧
    (∀ t ∈ (step s a).timers, t.callback = Callback.releaseIfNoneActive) := by
  cases a with
  | showModal modalId =>
    refine ⟨?_, by simpa [step] using htm⟩
    cases h : getElementById s.doc modalId with
    | none => simpa only [step, showModal_of_none s modalId h] using hinv
    | some m => exact fun _ => scrollLocked_showModal s modalId m h
  | hideModal modalId =>
    cases h : getElementById s.doc modalId with
    | none =>
      simp only [step, hideModal_of_none s modalId h]
      exact ⟨hinv, htm⟩
    | some m =>
      constructor
      · intro hne
        simp only [step] at hne ⊢
        rw [scrollLocked_of_body_eq _ _ (body_hideModal s modalId)]
        apply hinv
        rw [activeModals_hideModal s modalId m h] at hne
        intro hnil
        rw [hnil] at hne
        exact hne rfl
      · intro t ht
        simp only [step, hideModal_of_some s modalId m h, List.mem_append,
          List.mem_singleton] at ht
        rcases ht with ht | ht
        · exact htm t ht
        · rw [ht]
  | hideAllModals => exact absurd rfl ha
  | advance dt =>
    constructor
    · simp only [step, advance]
      exact foldl_check_keeps_locked _
        (fun t ht => htm t (List.mem_of_mem_filter ((mem_firingOrder _ t).1 ht))) s.doc hinv
    · intro t ht
      simp only [step, advance] at ht
      exact htm t (List.mem_of_mem_filter ht)

theorem run_keeps_visible_locked (actions : List Action) (s : State)
    (hno : Action.hideAllModals ∉ actions)
    (hinv : activeModals s.doc ≠ [] → scrollLocked s.doc)
    (htm : ∀ t ∈ s.timers, t.callback = Callback.releaseIfNoneActive) :
    activeModals (run s actions).doc ≠ [] → scrollLocked (run s actions).doc := by
  induction actions generalizing s with
  | nil => exact hinv
  | cons a rest ih =>
    show activeModals (run (step s a) rest).doc ≠ [] → _
    have ha : a ≠ Action.hideAllModals := fun h => hno (h ▸ List.mem_cons_self _ _)
    have hstep := step_keeps_visible_locked s a ha hinv htm
    exact ih (step s a) (fun h => hno (List.mem_cons_of_mem _ h)) hstep.1 hstep.2

/-- C3, refuted as stated: from the initial state of the example page, after `showModal("m1")`
and `hideModal("m1")` the lock is set although no modal is visible (the release waits for the
callback); and after `showModal("m1")`, `hideAllModals()`, 100 units, `showModal("m1")` and 200
more units, `m1` is visible although the lock is not set and nothing is pending. -/
theorem lock_iff_visible_fails :
    isInitial exampleStart ∧
    ¬ (scrollLocked (run exampleStart [Action.showModal "m1", Action.hideModal "m1"]).doc ↔
        activeModals (run exampleStart [Action.showModal "m1", Action.hideModal "m1"]).doc
          ≠ []) ∧
    ¬ (scrollLocked (run exampleStart [Action.showModal "m1", Action.hideAllModals,
          Action.advance 100, Action.showModal "m1", Action.advance 200]).doc ↔
        activeModals (run exampleStart [Action.showModal "m1", Action.hideAllModals,
          Action.advance 100, Action.showModal "m1", Action.advance 200]).doc ≠ []) := by
  decide

/-- C3, amended: in every state reached from an initial state (all modals hidden, lock not
set, nothing pending) by calls of `showModal`, `hideModal`, `hideAllModals` and the passing of
time, where `showModal` is called with identifiers of modal overlays or of no element: if the
scroll-lock is set, then at least one modal is visible or a deferred callback is still pending.
And in every state reached without a call of `hideAllModals`: if a modal is visible, the
scroll-lock is set. -/
theorem lock_accounted_for (s0 : State) (actions : List Action) (hinit : isInitial s0) :
    ((∀ modalId m, Action.showModal modalId ∈ actions →
        getElementById s0.doc modalId = some m → isModal s0.doc m) →
      scrollLocked (run s0 actions).doc →
        activeModals (run s0 actions).doc ≠ [] ∨ (run s0 actions).timers ≠ []) ∧
    (Action.hideAllModals ∉ actions →
      activeModals (run s0 actions).doc ≠ [] → scrollLocked (run s0 actions).doc) := by
  obtain ⟨hnone, hnl, htm⟩ := hinit
  constructor
  · intro hvalid
    exact run_keeps_lock_accounted actions s0 (fun hl => absurd hl hnl) hvalid
  · intro hno
    exact run_keeps_visible_locked actions s0 hno (fun hne => absurd hnone hne)
      (by rw [htm]; intro t ht; simp at ht)

/-- C3 amended, at a concrete input: the example page after `m1` is shown and closed, and
after `m1` is shown. -/
theorem lock_accounted_for_witness :
    isInitial exampleStart ∧
    (scrollLocked (run exampleStart [Action.showModal "m1", Action.hideModal "m1"]).doc →
      activeModals (run exampleStart [Action.showModal "m1", Action.hideModal "m1"]).doc ≠ [] ∨
      (run exampleStart [Action.showModal "m1", Action.hideModal "m1"]).timers ≠ []) ∧
    (activeModals (run exampleStart [Action.showModal "m1", Action.hideModal "m1"]).doc ≠ [] →
      scrollLocked (run exampleStart [Action.showModal "m1", Action.hideModal "m1"]).doc) ∧
    activeModals (run exampleStart [Action.showModal "m1"]).doc ≠ [] ∧
    scrollLocked (run exampleStart [Action.showModal "m1"]).doc :=
  ⟨by decide,
   (lock_accounted_for exampleStart [Action.showModal "m1", Action.hideModal "m1"]
      (by decide)).1 (by
        intro modalId m hmem hget
        have hid : modalId = "m1" := by simpa using hmem
        have h1 : getElementById exampleStart.doc "m1" = some 1 := by decide
        rw [hid, h1] at hget
        cases hget
        decide),
   (lock_accounted_for exampleStart [Action.showModal "m1", Action.hideModal "m1"]
      (by decide)).2 (by decide),
   by decide,
   (lock_accounted_for exampleStart [Action.showModal "m1"] (by decide)).2
      (by decide) (by decide)⟩

/-! ## Clicks -/

theorem parentOf_lt (d : Document) (hwf : wellFormed d) (i p : Nat)
    (h : parentOf d i = some p) : p < i := by
  by_cases hi : i < d.elements.length
  · exact hwf i hi p h
  · have hnone : d.elements[i]? = none := List.getElem?_eq_none (Nat.le_of_not_lt hi)
    simp [parentOf, hnone] at h

/-- In a well-formed document the bound on the number of steps is never reached: more fuel
gives the same propagation path. -/
theorem eventPathAux_fuel (d : Document) (hwf : wellFormed d) (fuel1 fuel2 i : Nat)
    (h1 : i < fuel1) (h2 : i < fuel2) : eventPathAux d fuel1 i = eventPathAux d fuel2 i := by
  induction fuel1 generalizing fuel2 i with
  | zero => omega
  | succ f1 ih =>
    cases fuel2 with
    | zero => omega
    | succ f2 =>
      simp only [eventPathAux]
      cases hp : parentOf d i with
      | none => rfl
      | some p =>
        have hlt := parentOf_lt d hwf i p hp
        simp only
        rw [ih f2 p (by omega) (by omega)]

/-- In a well-formed document more fuel gives the same result of `closest`. -/
theorem closestAux_fuel (d : Document) (hwf : wellFormed d) (c : String) (fuel1 fuel2 i : Nat)
    (h1 : i < fuel1) (h2 : i < fuel2) : closestAux d c fuel1 i = closestAux d c fuel2 i := by
  induction fuel1 generalizing fuel2 i with
  | zero => omega
  | succ f1 ih =>
    cases fuel2 with
    | zero => omega
    | succ f2 =>
      simp only [closestAux]
      split
      · rfl
      · cases hp : parentOf d i with
        | none => rfl
        | some p =>
          have hlt := parentOf_lt d hwf i p hp
          simp only
          rw [ih f2 p (by omega) (by omega)]

theorem eventPathAux_le (d : Document) (hwf : wellFormed d) (fuel i n : Nat)
    (h : n ∈ eventPathAux d fuel i) : n ≤ i := by
  induction fuel generalizing i with
  | zero => simp [eventPathAux] at h
  | succ f ih =>
    simp only [eventPathAux, List.mem_cons] at h
    rcases h with h | h
    · omega
    · cases hp : parentOf d i with
      | none => simp [hp] at h
      | some p =>
        simp only [hp] at h
        have := ih p h
        have := parentOf_lt d hwf i p hp
        omega

theorem mem_querySelectorAll_single (d : Document) (c : String) (i : Nat) :
    i ∈ querySelectorAll d [c] ↔ c ∈ classListOf d i := by
  unfold querySelectorAll
  simp only [List.mem_filter, List.mem_range, hasClasses, List.all_cons, List.all_nil,
    Bool.and_true, decide_eq_true_eq]
  constructor
  · exact fun h => h.2
  · intro h
    refine ⟨?_, h⟩
    by_contra hlt
    have hnone : d.elements[i]? = none := List.getElem?_eq_none (Nat.le_of_not_lt hlt)
    simp [classListOf, hnone] at h

theorem nodup_querySelectorAll (d : Document) (cs : List String) :
    (querySelectorAll d cs).Nodup :=
  (List.nodup_range _).filter _

theorem filter_eq_of_nodup (l : List Nat) (hl : l.Nodup) (n : Nat) :
    l.filter (fun b => decide (b = n)) = if n ∈ l then [n] else [] := by
  induction l with
  | nil => simp
  | cons a as ih =>
    have hnd := List.nodup_cons.1 hl
    by_cases ha : a = n
    · subst ha
      have : as.filter (fun b => decide (b = a)) = [] := by
        rw [ih hnd.2, if_neg hnd.1]
      simp [List.filter_cons, this]
    · have hne : ¬ n = a := fun h => ha h.symm
      simp [List.filter_cons, ha, hne, ih hnd.2]

/-- The click listeners `init` binds on element `n`, in the order in which they run. -/
theorem listeners_at_node (s0 : State) (h0 : s0.listeners = []) (n : Nat) :
    (init s0).listeners.filter (fun l => decide (l.clickNode = some n)) =
      (if "floating-btn" ∈ classListOf s0.doc n then [Listener.widgetClick n] else []) ++
      (if "close-btn" ∈ classListOf s0.doc n then [Listener.closeClick n] else []) ++
      (if "modal-overlay" ∈ classListOf s0.doc n then [Listener.overlayClick n] else []) := by
  have e1 : ((fun l : Listener => decide (l.clickNode = some n)) ∘ Listener.widgetClick) =
      (fun b => decide (b = n)) := by
    funext b; simp [Listener.clickNode]
  have e2 : ((fun l : Listener => decide (l.clickNode = some n)) ∘ Listener.closeClick) =
      (fun b => decide (b = n)) := by
    funext b; simp [Listener.clickNode]
  have e3 : ((fun l : Listener => decide (l.clickNode = some n)) ∘ Listener.overlayClick) =
      (fun b => decide (b = n)) := by
    funext b; simp [Listener.clickNode]
  rw [listeners_init, h0, List.nil_append]
  simp only [List.filter_append, List.filter_map, e1, e2, e3,
    filter_eq_of_nodup _ (nodup_querySelectorAll _ _), mem_querySelectorAll_single]
  have e4 : List.filter (fun l : Listener => decide (l.clickNode = some n))
      [Listener.documentKeydown] = [] := by
    simp [Listener.clickNode]
  rw [e4, List.append_nil]
  split <;> split <;> split <;> simp

theorem foldl_flatMap_eq {α β γ : Type} (f : β → α → β) (g : γ → List α) (l : List γ) (b : β) :
    (l.flatMap g).foldl f b = l.foldl (fun acc x => (g x).foldl f acc) b := by
  induction l generalizing b with
  | nil => rfl
  | cons x xs ih => simp [List.flatMap_cons, List.foldl_append, ih]

theorem foldl_eq_self_of_forall {α β : Type} (f : β → α → β) (l : List α) (b : β)
    (h : ∀ x ∈ l, ∀ acc, f acc x = acc) : l.foldl f b = b := by
  induction l generalizing b with
  | nil => rfl
  | cons x xs ih =>
    rw [List.foldl_cons, h x (List.mem_cons_self _ _)]
    exact ih b (fun y hy => h y (List.mem_cons_of_mem _ hy))

theorem isActive_showModal_of_isActive (s : State) (modalId : String) (j : Nat)
    (h : isActive s.doc j) : isActive (showModal s modalId).doc j := by
  cases hg : getElementById s.doc modalId with
  | none => rw [showModal_of_none s modalId hg]; exact h
  | some m =>
    unfold isActive at h ⊢
    rw [classListOf_showModal s modalId m hg]
    split
    · exact (mem_classListAdd _ _ _).2 (Or.inl h)
    · exact h

theorem foldl_preserves {α β : Type} (P : β → Prop) (f : β → α → β) (l : List α) (b : β)
    (hb : P b) (hf : ∀ x ∈ l, ∀ acc, P acc → P (f acc x)) : P (l.foldl f b) := by
  induction l generalizing b with
  | nil => exact hb
  | cons x xs ih =>
    rw [List.foldl_cons]
    exact ih (f b x) (hf x (List.mem_cons_self _ _) b hb)
      (fun y hy => hf y (List.mem_cons_of_mem _ hy))

theorem click_eq_foldl_path (s : State) (target : Nat) :
    click s target =
      (eventPath s.doc target).foldl
        (fun acc node =>
          (s.listeners.filter (fun l => decide (l.clickNode = some node))).foldl
            (fun st l => handleClick l target st) acc) s := by
  unfold click clickListeners
  exact foldl_flatMap_eq _ _ _ _

theorem mem_eventPath_self (d : Document) (i : Nat) (h : i < d.elements.length) :
    i ∈ eventPath d i := by
  unfold eventPath
  cases hl : d.elements.length with
  | zero => omega
  | succ k => simp [eventPathAux]

theorem lt_length_of_mem_classListOf (d : Document) (c : String) (i : Nat)
    (h : c ∈ classListOf d i) : i < d.elements.length := by
  by_contra hlt
  have hnone : d.elements[i]? = none := List.getElem?_eq_none (Nat.le_of_not_lt hlt)
  simp [classListOf, hnone] at h

/-- C7, refuted as stated: on the example page with `m1` open and the listeners bound, the
close button (element 3) is a descendant of the overlay `m1` (element 1), and a click on it
closes `m1`. -/
theorem close_button_click_closes_modal :
    (showModal exampleStart "m1").listeners = [] ∧
    isModal (init (showModal exampleStart "m1")).doc 1 ∧
    isActive (init (showModal exampleStart "m1")).doc 1 ∧
    eventPath (init (showModal exampleStart "m1")).doc 3 = [3, 2, 1] ∧
    click (init (showModal exampleStart "m1")) 3 =
      hideModal (init (showModal exampleStart "m1")) "m1" ∧
    ¬ isActive (click (init (showModal exampleStart "m1")) 3).doc 1 := by
  decide

/-- C7, amended: after `init` on a page with nothing bound yet, for every modal overlay `m`:
a click whose target is `m` itself runs the overlay listener of `m`, which calls
`hideModal(m.id)`; when the document is in document order and neither `m` nor an ancestor of
it is a trigger or a close button, the click is exactly `hideModal(m.id)`.  For a click whose
target is another element the overlay listener of `m` does nothing; and when the target is not
itself an overlay and neither it nor an ancestor of it is a close button, the click closes
nothing: every element that was visible is still visible.  A click on a close button runs the
listener of that button, which calls `hideModal` with the id of the nearest enclosing
overlay. -/
theorem click_on_overlay_and_content (s0 : State) (m t : Nat)
    (h0 : s0.listeners = []) (hm : isModal s0.doc m) :
    (∃ pre post, clickListeners (init s0) m = pre ++ Listener.overlayClick m :: post ∧
      click (init s0) m =
        post.foldl (fun st l => handleClick l m st)
          (handleClick (Listener.overlayClick m) m
            (pre.foldl (fun st l => handleClick l m st) (init s0)))) ∧
    (∀ st, handleClick (Listener.overlayClick m) m st = hideModal st (idOf st.doc m)) ∧
    (t ≠ m → ∀ st, handleClick (Listener.overlayClick m) t st = st) ∧
    (wellFormed s0.doc →
      (∀ n ∈ eventPath s0.doc m,
        "floating-btn" ∉ classListOf s0.doc n ∧ "close-btn" ∉ classListOf s0.doc n) →
      click (init s0) m = hideModal (init s0) (idOf s0.doc m) ∧
      (getElementById s0.doc (idOf s0.doc m) = some m → ¬ isActive (click (init s0) m).doc m)) ∧
    (¬ isModal s0.doc t →
      (∀ n ∈ eventPath s0.doc t, "close-btn" ∉ classListOf s0.doc n) →
      ∀ j, isActive s0.doc j → isActive (click (init s0) t).doc j) ∧
    ("close-btn" ∈ classListOf s0.doc t →
      Listener.closeClick t ∈ clickListeners (init s0) t ∧
      ∀ st, closest st.doc "modal-overlay" t = some m →
        handleClick (Listener.closeClick t) t st = hideModal st (idOf st.doc m)) := by
  have hlen : m < s0.doc.elements.length := lt_length_of_mem_classListOf _ _ _ hm
  refine ⟨?_, ?_, ?_, ?_, ?_, ?_⟩
  · have hmem : Listener.overlayClick m ∈ clickListeners (init s0) m := by
      unfold clickListeners
      rw [List.mem_flatMap]
      refine ⟨m, mem_eventPath_self _ _ hlen, ?_⟩
      rw [listeners_at_node s0 h0 m]
      have : "modal-overlay" ∈ classListOf s0.doc m := hm
      simp [this]
    obtain ⟨pre, post, hsplit⟩ := List.append_of_mem hmem
    refine ⟨pre, post, hsplit, ?_⟩
    unfold click
    rw [hsplit, List.foldl_append, List.foldl_cons]
  · intro st
    simp [handleClick]
  · intro hne st
    simp [handleClick, hne]
  · intro hwf hno
    suffices hclick : click (init s0) m = hideModal (init s0) (idOf s0.doc m) by
      refine ⟨hclick, fun hget => ?_⟩
      rw [hclick]
      exact not_isActive_hideModal (init s0) _ m hget
    rw [click_eq_foldl_path]
    have hpath : ∃ rest, eventPath s0.doc m = m :: rest ∧ ∀ n ∈ rest, n < m := by
      unfold eventPath
      cases hl : s0.doc.elements.length with
      | zero => omega
      | succ k =>
        simp only [eventPathAux]
        refine ⟨_, rfl, ?_⟩
        intro n hn
        cases hp : parentOf s0.doc m with
        | none => simp [hp] at hn
        | some p =>
          simp only [hp] at hn
          have := eventPathAux_le s0.doc hwf k p n hn
          have := parentOf_lt s0.doc hwf m p hp
          omega
    obtain ⟨rest, hrest, hlt⟩ := hpath
    have hnode : ∀ n ∈ eventPath s0.doc m,
        (init s0).listeners.filter (fun l => decide (l.clickNode = some n)) =
          if "modal-overlay" ∈ classListOf s0.doc n then [Listener.overlayClick n] else [] := by
      intro n hn
      rw [listeners_at_node s0 h0 n]
      simp [(hno n hn).1, (hno n hn).2]
    simp only [doc_init]
    rw [hrest, List.foldl_cons, hnode m (by rw [hrest]; exact List.mem_cons_self _ _)]
    have hmo : "modal-overlay" ∈ classListOf s0.doc m := hm
    simp only [hmo, if_true, List.foldl_cons, List.foldl_nil]
    have hhead : handleClick (Listener.overlayClick m) m (init s0) =
        hideModal (init s0) (idOf s0.doc m) := by
      simp [handleClick]
    rw [hhead]
    apply foldl_eq_self_of_forall
    intro n hn acc
    rw [hnode n (by rw [hrest]; exact List.mem_cons_of_mem _ hn)]
    have hne : ¬ m = n := fun h => absurd (hlt n hn) (by omega)
    split
    · simp [handleClick, hne]
    · rfl
  · intro hnm hno j hj
    unfold click
    refine foldl_preserves (fun st : State => isActive st.doc j) _ _ _ hj ?_
    · intro l hl acc hacc
      unfold clickListeners at hl
      rw [List.mem_flatMap] at hl
      obtain ⟨n, hn, hln⟩ := hl
      rw [listeners_at_node s0 h0 n] at hln
      simp only [doc_init] at hn
      simp only [(hno n hn), if_false, List.append_nil, List.mem_append] at hln
      rcases hln with hln | hln
      · split at hln
        · simp only [List.mem_singleton] at hln
          subst hln
          simp only [handleClick]
          split
          · split
            · exact isActive_showModal_of_isActive _ _ _ hacc
            · exact hacc
          · exact hacc
        · simp at hln
      · split at hln
        · rename_i hmod
          simp only [List.mem_singleton] at hln
          subst hln
          have hne : ¬ t = n := fun h => hnm (h ▸ hmod)
          simp [handleClick, hne, hacc]
        · simp at hln
  · intro hc
    constructor
    · unfold clickListeners
      rw [List.mem_flatMap]
      refine ⟨t, mem_eventPath_self _ _ (lt_length_of_mem_classListOf _ _ _ hc), ?_⟩
      rw [listeners_at_node s0 h0 t]
      simp [hc]
    · intro st hst
      simp [handleClick, hst]

/-- C7 amended, at a concrete input: on the example page with `m1` open, a click on the
overlay (element 1), a click on its content box (element 2) and a click on its close button
(element 3). -/
theorem click_on_overlay_and_content_witness :
    (showModal exampleStart "m1").listeners = [] ∧
    isModal (showModal exampleStart "m1").doc 1 ∧
    wellFormed (showModal exampleStart "m1").doc ∧
    click (init (showModal exampleStart "m1")) 1 =
      hideModal (init (showModal exampleStart "m1")) (idOf (showModal exampleStart "m1").doc 1) ∧
    isActive (click (init (showModal exampleStart "m1")) 2).doc 1 ∧
    "close-btn" ∈ classListOf (showModal exampleStart "m1").doc 3 ∧
    Listener.closeClick 3 ∈ clickListeners (init (showModal exampleStart "m1")) 3 :=
  ⟨rfl, by decide, by decide,
   ((click_on_overlay_and_content (showModal exampleStart "m1") 1 2 rfl (by decide)).2.2.2.1
      (by decide) (by decide)).1,
   (click_on_overlay_and_content (showModal exampleStart "m1") 1 2 rfl (by decide)).2.2.2.2.1
      (by decide) (by decide) 1 (by decide),
   by decide,
   ((click_on_overlay_and_content (showModal exampleStart "m1") 1 3 rfl (by decide)).2.2.2.2.2
      (by decide)).1⟩

/-- C5, refuted as stated: on the page with the trigger `b1`, no modal overlay has the id
`b1`, yet `getElementById` finds the trigger, and `showModal("b1")` marks it active, sets
overflow, position and width of the body and dispatches `modalShown`; `hideModal("b1")`
schedules a callback and dispatches `modalHidden`. -/
theorem id_of_other_element_is_not_noop :
    (∀ i, isModal exampleTriggerStart.doc i → idOf exampleTriggerStart.doc i ≠ "b1") ∧
    getElementById exampleTriggerStart.doc "b1" = some 0 ∧
    showModal exampleTriggerStart "b1" ≠ exampleTriggerStart ∧
    hideModal exampleTriggerStart "b1" ≠ exampleTriggerStart ∧
    isActive (showModal exampleTriggerStart "b1").doc 0 ∧
    ¬ scrollLocked exampleTriggerStart.doc ∧
    scrollLocked (showModal exampleTriggerStart "b1").doc ∧
    (showModal exampleTriggerStart "b1").dispatched.length = 1 ∧
    (hideModal exampleTriggerStart "b1").dispatched.length = 1 ∧
    (hideModal exampleTriggerStart "b1").timers.length = 1 := by
  refine ⟨?_, by decide, by decide, by decide, by decide, by decide, by decide, by decide,
    by decide, by decide⟩
  intro i hi
  have hlt : i < 2 := lt_length_of_mem_classListOf _ _ _ hi
  have hcases : i = 0 ∨ i = 1 := by omega
  rcases hcases with h | h
  · subst h
    exact absurd hi (by decide)
  · subst h
    decide

end FloatingWidgets
